import Mathlib

/-!
Verification development for the audiobook-generator repository.

Strings are modelled as `List Char`.  Python regular-expression searches are
modelled by explicit scanning functions that reproduce the leftmost-match and
lazy/greedy backtracking behaviour of the particular patterns used in the
source.  Floating-point arithmetic is modelled exactly over `ℚ`.  External
library calls (DSP routines, file I/O) are abstracted as explicit oracle
parameters; all control flow around them is translated from the source.
-/

namespace AudioDrama

/-- Python whitespace characters (`str.strip` default set / regex `\s`). -/
def wsChar (c : Char) : Bool :=
  c = ' ' || c = '\t' || c = '\n' || c = '\r' || c = '\x0b' || c = '\x0c'

/-- Python `str.strip()`: drop whitespace from both ends. -/
def stripStr (s : List Char) : List Char :=
  ((s.dropWhile wsChar).reverse.dropWhile wsChar).reverse

/-- Python `str.lower()` (ASCII range, as used by the source). -/
def lowerStr (s : List Char) : List Char :=
  s.map Char.toLower

/-- `hasPrefixStr p s`: `p` is a prefix of `s`. -/
def hasPrefixStr : List Char → List Char → Bool
  | [], _ => true
  | _ :: _, [] => false
  | p :: ps, c :: cs => p = c && hasPrefixStr ps cs

/-- Python `n in s`: `n` occurs as a contiguous substring of `s`. -/
def subStr (n : List Char) : List Char → Bool
  | [] => hasPrefixStr n []
  | c :: rest => hasPrefixStr n (c :: rest) || subStr n rest

/-- Python `s.split(sep)` for a one-character separator. -/
def splitOnChar (sep : Char) : List Char → List (List Char)
  | [] => [[]]
  | c :: rest =>
    let r := splitOnChar sep rest
    if c = sep then [] :: r
    else
      match r with
      | h :: t => (c :: h) :: t
      | [] => [[c]]

/-- Helper for `countWords`: the boolean records whether the previous
character belonged to a word. -/
def countWordsAux : List Char → Bool → Nat
  | [], _ => 0
  | c :: rest, inWord =>
    if wsChar c then countWordsAux rest false
    else (if inWord then 0 else 1) + countWordsAux rest true

/-- Python `len(s.split())`: number of maximal non-whitespace runs. -/
def countWords (s : List Char) : Nat :=
  countWordsAux s false

/-- Association-list lookup (Python `dict` access by key). -/
def alookup (k : List Char) : List (List Char × α) → Option α
  | [] => none
  | (k', v) :: rest => if k = k' then some v else alookup k rest

/-- Association-list store (Python `dict[k] = v`): replace in place if the key
exists, else append, preserving insertion order. -/
def aupsert (k : List Char) (v : α) : List (List Char × α) → List (List Char × α)
  | [] => [(k, v)]
  | (k', v') :: rest => if k = k' then (k, v) :: rest else (k', v') :: aupsert k v rest

/-- Split at the first occurrence of `stop`, returning the (possibly empty)
part before it and the part after it; `none` when `stop` does not occur. -/
def splitAtFirst (stop : Char) : List Char → Option (List Char × List Char)
  | [] => none
  | c :: rest =>
    if c = stop then some ([], rest)
    else
      match splitAtFirst stop rest with
      | some (a, b) => some (c :: a, b)
      | none => none

/-! ### MarkdownParser.parse_scene (src/script_parser/markdown_parser.py)

The scene parser classifies each stripped non-blank line using, in order:
the sound-cue regex `\[sound:\s*(.+?)\]` (search), the dialogue regexes
`\*\*(.+?)\*\*:\s*(.+)$` then `\*\*(.+?)\*\*\s*\((.+?)\):\s*(.+)$` (search),
and a `Narrator:` fallback (which, in the source, runs even when a dialogue
pattern already matched, because its guard compares bare `{'type': ...}`
dicts that never equal the richer element dicts).  Each regex is modelled by
a scanner reproducing leftmost search with lazy-group backtracking. -/

/-- A scene element produced by `MarkdownParser.parse_scene`. -/
inductive MDElem where
  | sound (description : List Char)
  | dialogue (character text : List Char) (emotion : Option (List Char))
      (isInternal hasInternal : Bool)
deriving DecidableEq, Repr

/-- Lazy body of the sound-cue regex: match `(.+?)\]` against `v`, i.e. find
the shortest non-empty group followed by `]`. -/
def soundLazy (v : List Char) : Option (List Char × List Char) :=
  match v with
  | [] => none
  | c :: rest =>
    match splitAtFirst ']' rest with
    | some (a, b) => some (c :: a, b)
    | none => none

/-- Backtracking over the greedy `\s*` of `\[sound:\s*(.+?)\]`: try the
whitespace-run length `w` downwards until the lazy body matches. -/
def soundBack (u : List Char) : Nat → Option (List Char × List Char)
  | 0 => soundLazy u
  | w + 1 =>
    match soundLazy (u.drop (w + 1)) with
    | some r => some r
    | none => soundBack u w

/-- `re.search(r'\[sound:\s*(.+?)\]', line)`: leftmost occurrence, returning
group 1. -/
def soundSearch : List Char → Option (List Char)
  | [] => none
  | s@(_ :: t) =>
    if hasPrefixStr ("[sound:".toList) s then
      match soundBack (s.drop 7) ((s.drop 7).takeWhile wsChar).length with
      | some (g, _) => some g
      | none => soundSearch t
    else soundSearch t

/-- Lazy group 1 of `\*\*(.+?)\*\*:\s*(.+)$`, applied after an initial `**`:
the shortest non-empty group followed by `**:` and a non-empty remainder
(the remainder always satisfies `\s*(.+)$` when non-empty). -/
def pat1Split : List Char → Option (List Char × List Char)
  | [] => none
  | c :: rest =>
    if hasPrefixStr ("**:".toList) rest && rest.drop 3 ≠ [] then
      some ([c], rest.drop 3)
    else
      match pat1Split rest with
      | some (g, r) => some (c :: g, r)
      | none => none

/-- `re.search(r'\*\*(.+?)\*\*:\s*(.+)$', line)`: leftmost start position at
a literal `**`, returning (group 1, text after `**:`). -/
def pat1Search : List Char → Option (List Char × List Char)
  | [] => none
  | s@(_ :: t) =>
    if hasPrefixStr ("**".toList) s then
      match pat1Split (s.drop 2) with
      | some r => some r
      | none => pat1Search t
    else pat1Search t

/-- Lazy group 2 of the emotion dialogue regex: the shortest non-empty group
followed by `):` and a non-empty remainder. -/
def pat2Lazy : List Char → Option (List Char × List Char)
  | [] => none
  | c :: rest =>
    if hasPrefixStr ("):".toList) rest && rest.drop 2 ≠ [] then
      some ([c], rest.drop 2)
    else
      match pat2Lazy rest with
      | some (g, r) => some (c :: g, r)
      | none => none

/-- Continuation after group 1 of `\*\*(.+?)\*\*\s*\((.+?)\):\s*(.+)$`:
a literal `**`, the greedy whitespace run, `(`, then the lazy group 2. -/
def pat2AfterG1 (u : List Char) : Option (List Char × List Char) :=
  if hasPrefixStr ("**".toList) u then
    match (u.drop 2).dropWhile wsChar with
    | '(' :: w => pat2Lazy w
    | _ => none
  else none

/-- Lazy group 1 of the emotion dialogue regex, applied after an initial
`**`. -/
def pat2Split : List Char → Option (List Char × List Char × List Char)
  | [] => none
  | c :: rest =>
    match pat2AfterG1 rest with
    | some (g2, r) => some ([c], g2, r)
    | none =>
      match pat2Split rest with
      | some (g1, g2, r) => some (c :: g1, g2, r)
      | none => none

/-- `re.search(r'\*\*(.+?)\*\*\s*\((.+?)\):\s*(.+)$', line)`. -/
def pat2Search : List Char → Option (List Char × List Char × List Char)
  | [] => none
  | s@(_ :: t) =>
    if hasPrefixStr ("**".toList) s then
      match pat2Split (s.drop 2) with
      | some r => some r
      | none => pat2Search t
    else pat2Search t

/-- Lazy group of `re.match(r'\((.+?)\)\s*(.+)', text)` after the opening
parenthesis: shortest non-empty group followed by `)` and a non-empty
remainder. -/
def emoLazy : List Char → Option (List Char × List Char)
  | [] => none
  | c :: rest =>
    if rest.head? = some ')' && rest.drop 1 ≠ [] then
      some ([c], rest.drop 1)
    else
      match emoLazy rest with
      | some (g, r) => some (c :: g, r)
      | none => none

/-- `re.match(r'\((.+?)\)\s*(.+)', text)` returning (group 1, text after the
closing parenthesis). -/
def emotionMatch (t : List Char) : Option (List Char × List Char) :=
  match t with
  | '(' :: u => emoLazy u
  | _ => none

/-- `re.search(r'\*(.+?)\*', text)`: group 1 of the leftmost internal-thought
match. -/
def thoughtSearch : List Char → Option (List Char)
  | [] => none
  | c :: t =>
    if c = '*' then
      match t with
      | d :: rest =>
        match splitAtFirst '*' rest with
        | some (a, _) => some (d :: a)
        | none => thoughtSearch t
      | [] => none
    else thoughtSearch t

/-- The internal-thought post-processing applied to a freshly built dialogue
element: if the whole text is wrapped in `*...*` mark it internal and unwrap,
else if a wrapped fragment occurs mark `has_internal`. -/
def mkDialogue (ch text : List Char) (emotion : Option (List Char)) : MDElem :=
  match thoughtSearch text with
  | some g =>
    if '*' :: (g ++ ['*']) = text then
      MDElem.dialogue ch (stripStr g) emotion true false
    else
      MDElem.dialogue ch text emotion false true
  | none => MDElem.dialogue ch text emotion false false

/-- `re.search(r'Narrator:\s*(.+)', line)`: the text after the leftmost
`Narrator:` occurrence followed by at least one character. -/
def narratorSearch : List Char → Option (List Char)
  | [] => none
  | s@(_ :: t) =>
    if hasPrefixStr ("Narrator:".toList) s && s.drop 9 ≠ [] then
      some (s.drop 9)
    else narratorSearch t

/-- Classification of one stripped scene line (the body of the per-line loop
of `MarkdownParser.parse_scene`). -/
def classifyLine (line : List Char) : List MDElem :=
  if line = [] then []
  else
    match soundSearch line with
    | some g => [MDElem.sound (stripStr g)]
    | none =>
      let dial : List MDElem :=
        match pat1Search line with
        | some (g1, rem) =>
          let t0 := stripStr rem
          match emotionMatch t0 with
          | some (e, r) => [mkDialogue (stripStr g1) (stripStr r) (some (stripStr e))]
          | none => [mkDialogue (stripStr g1) t0 none]
        | none =>
          match pat2Search line with
          | some (g1, g2, rem) =>
            [mkDialogue (stripStr g1) (stripStr rem) (some (stripStr g2))]
          | none => []
      let narr : List MDElem :=
        if subStr ("Narrator:".toList) line then
          match narratorSearch line with
          | some t => [MDElem.dialogue ("Narrator".toList) (stripStr t) none false false]
          | none => []
        else []
      dial ++ narr

/-- `MarkdownParser.parse_scene`: split the scene content into lines, strip
each, skip blanks, and classify every line in document order. -/
def parseScene (sceneContent : List Char) : List MDElem :=
  ((splitOnChar '\n' sceneContent).map (fun l => classifyLine (stripStr l))).flatten

/-! ### SoundCueExtractor._categorize_sound_cue
(src/script_parser/sound_cue_extractor.py) -/

/-- The prioritized weather keywords checked first. -/
def weatherPriorityKeywords : List (List Char) :=
  ["rain", "thunder", "lightning", "storm", "wind", "snow", "hail",
   "blizzard"].map String.toList

/-- The prioritized electronic-device keywords checked second. -/
def electronicPriorityKeywords : List (List Char) :=
  ["phone", "beep", "computer", "electronic", "digital", "alarm",
   "static"].map String.toList

/-- `self.sound_categories`, in the declaration (= dict iteration) order of
the source. -/
def soundCategories : List (List Char × List (List Char)) :=
  [("ambient".toList,
    ["ambient", "background", "atmosphere", "room tone", "environment",
     "wind", "rain", "forest", "city", "crowd", "traffic", "restaurant",
     "birds", "ocean", "waves", "fire", "crackling"].map String.toList),
   ("transition".toList,
    ["transition", "flashback", "dream", "memory", "time passing",
     "fade", "whoosh", "swoosh", "scene change"].map String.toList),
   ("impact".toList,
    ["crash", "bang", "explosion", "slam", "thud", "hit", "punch",
     "collision", "breaking", "smash", "shatter", "impact"].map String.toList),
   ("object".toList,
    ["door", "window", "car", "engine", "machine", "phone", "clock",
     "glass", "paper", "fabric", "footsteps", "knock", "bell",
     "alarm"].map String.toList),
   ("weather".toList,
    ["rain", "thunder", "lightning", "wind", "storm", "blizzard",
     "snow", "hail", "hurricane", "tornado"].map String.toList),
   ("animal".toList,
    ["dog", "cat", "bird", "wolf", "howl", "roar", "chirp", "growl",
     "bark", "meow", "neigh", "animal"].map String.toList),
   ("electronic".toList,
    ["beep", "static", "computer", "radio", "television", "phone",
     "alarm", "electronic", "digital", "interference"].map String.toList),
   ("human".toList,
    ["whisper", "cough", "laugh", "cry", "scream", "sigh", "gasp",
     "breath", "heartbeat", "footsteps", "clap", "snap",
     "whistle"].map String.toList),
   ("musical".toList,
    ["music", "melody", "theme", "song", "tune", "jingle", "chord",
     "piano", "guitar", "drum", "orchestra", "band",
     "instrument"].map String.toList)]

/-- First category of the table whose keyword list has a member occurring in
the lowered description. -/
def findCategory (d : List Char) : List (List Char × List (List Char)) → Option (List Char)
  | [] => none
  | (cat, kws) :: rest =>
    if kws.any (fun k => subStr k d) then some cat else findCategory d rest

/-- `SoundCueExtractor._categorize_sound_cue`: weather priority keywords,
then electronic priority keywords, then the category table in order, with
default `misc`. -/
def categorizeSoundCue (description : List Char) : List Char :=
  let d := lowerStr description
  if weatherPriorityKeywords.any (fun k => subStr k d) then "weather".toList
  else if electronicPriorityKeywords.any (fun k => subStr k d) then "electronic".toList
  else
    match findCategory d soundCategories with
    | some cat => cat
    | none => "misc".toList

/-- Built from the spec's words (§4.3.1 sound-cue categorization sentence):
weather keywords checked first, electronic-device keywords second, then the
general category table in its declared order, default `misc`. -/
def categorizeSoundCueSpec (description : List Char) : List Char :=
  let d := lowerStr description
  if weatherPriorityKeywords.any (fun k => subStr k d) then "weather".toList
  else if electronicPriorityKeywords.any (fun k => subStr k d) then "electronic".toList
  else
    match findCategory d soundCategories with
    | some cat => cat
    | none => "misc".toList

/-! ### ScriptStructureBuilder (src/script_parser/script_structure_builder.py)

Elements are dictionaries in the source; they are modelled as a record whose
optional fields stand for optionally-present keys.  Arithmetic is over `ℚ`.
-/

/-- The timing parameters (`self.params`), configurable in the source. -/
structure TimingParams where
  words_per_minute : ℚ
  pause_after_sound : ℚ
  pause_between_speakers : ℚ
  pause_after_scene : ℚ
  average_sound_duration : ℚ
deriving DecidableEq, Repr

/-- The defaults of `ScriptStructureBuilder.__init__`:
150 wpm, 0.5 s, 0.3 s, 1.5 s, 3.0 s. -/
def defaultTimingParams : TimingParams :=
  { words_per_minute := 150
    pause_after_sound := 1/2
    pause_between_speakers := 3/10
    pause_after_scene := 3/2
    average_sound_duration := 3 }

/-- The slice of a character's `voice_profile` dict consulted by the builder
(only the `speed` key is read). -/
structure CharVoiceProfile where
  speed : Option (List Char) := none
deriving DecidableEq, Repr

/-- A character entry as consulted by the builder
(`characters[ch].get('voice_profile', {})`). -/
structure CharInfo where
  voice_profile : Option CharVoiceProfile := none
deriving DecidableEq, Repr

/-- A scene element dictionary.  `type` is the `'type'` key; every `Option`
field is an optionally-present key (`durationMod` is the `'duration'`
modifier key of sound elements, a string `'short'`/`'long'`). -/
structure PElem where
  type : List Char
  character : Option (List Char) := none
  text : Option (List Char) := none
  emotion : Option (List Char) := none
  modifier : Option (List Char) := none
  effect : Option (List Char) := none
  description : Option (List Char) := none
  subtype : Option (List Char) := none
  category : Option (List Char) := none
  durationMod : Option (List Char) := none
  isInternal : Bool := false
deriving DecidableEq, Repr

/-- A scene dictionary (`{'name': ..., 'elements': [...]}`). -/
structure PScene where
  name : List Char
  elements : List PElem
deriving DecidableEq, Repr

/-- The sound-element duration: `average_sound_duration`, halved by a
`'short'` duration modifier, doubled by a `'long'` one. -/
def soundDuration (params : TimingParams) (e : PElem) : ℚ :=
  match e.durationMod with
  | some m =>
    if m = "short".toList then params.average_sound_duration * (1/2)
    else if m = "long".toList then params.average_sound_duration * 2
    else params.average_sound_duration
  | none => params.average_sound_duration

/-- The effective words-per-minute rate for a dialogue element's character:
the base rate, ×1.2 for a `'fast'` profile speed, ×0.85 for `'slow'`. -/
def dialogueWpm (params : TimingParams) (characters : List (List Char × CharInfo))
    (ch : List Char) : ℚ :=
  match alookup ch characters with
  | some info =>
    match info.voice_profile with
    | some vp =>
      match vp.speed with
      | some sp =>
        if sp = "fast".toList then params.words_per_minute * (6/5)
        else if sp = "slow".toList then params.words_per_minute * (17/20)
        else params.words_per_minute
      | none => params.words_per_minute
    | none => params.words_per_minute
  | none => params.words_per_minute

/-- The emotion adjustment of a dialogue duration (`duration *= 0.9`,
`*= 1.15`, or `*= 1.1` by emotion group, lower-cased). -/
def applyEmotion (emotion : Option (List Char)) (d : ℚ) : ℚ :=
  match emotion with
  | some em =>
    let el := lowerStr em
    if el = "excited".toList ∨ el = "angry".toList ∨
       el = "furious".toList ∨ el = "agitated".toList then d * (9/10)
    else if el = "sad".toList ∨ el = "solemn".toList ∨
       el = "grieving".toList ∨ el = "melancholy".toList then d * (23/20)
    else if el = "thoughtful".toList ∨ el = "considering".toList ∨
       el = "pondering".toList then d * (11/10)
    else d
  | none => d

/-- The internal-thought adjustment (`duration *= 1.1` when `is_internal`). -/
def applyInternal (isInternal : Bool) (d : ℚ) : ℚ :=
  if isInternal then d * (11/10) else d

/-- `ScriptStructureBuilder._calculate_element_duration`.  The Python
function implicitly returns `None` for element types other than `'sound'`
and `'dialogue'` (and raises `KeyError` for a dialogue dict without
`'character'`/`'text'` keys); both are modelled as `none`, which makes the
caller's schedule fail exactly where the Python addition of `None` to the
running clock raises. -/
def calcElementDuration (params : TimingParams)
    (characters : List (List Char × CharInfo)) (e : PElem) : Option ℚ :=
  if e.type = "sound".toList then
    some (soundDuration params e)
  else if e.type = "dialogue".toList then
    match e.character, e.text with
    | some ch, some tx =>
      some (applyInternal e.isInternal (applyEmotion e.emotion
        ((countWords tx : ℚ) / dialogueWpm params characters ch * 60)))
    | _, _ => none
  else none

/-- A scheduled element (`element.copy()` plus `start_time`/`duration`). -/
structure TimedElem where
  elem : PElem
  start_time : ℚ
  duration : ℚ
deriving DecidableEq, Repr

/-- A per-scene timeline entry. -/
structure SceneEntry where
  name : List Char
  start_time : ℚ
  end_time : ℚ
  duration : ℚ
  elements : List TimedElem
deriving DecidableEq, Repr

/-- The pause added after an element, by type. -/
def pauseFor (params : TimingParams) (e : PElem) : ℚ :=
  if e.type = "sound".toList then params.pause_after_sound
  else if e.type = "dialogue".toList then params.pause_between_speakers
  else 0

/-- The inner loop of `build_script_structure` over one scene's elements:
returns the scheduled elements and the updated running clock. -/
def schedElements (params : TimingParams) (chars : List (List Char × CharInfo)) :
    List PElem → ℚ → Option (List TimedElem × ℚ)
  | [], t => some ([], t)
  | e :: rest, t =>
    match calcElementDuration params chars e with
    | none => none
    | some d =>
      match schedElements params chars rest (t + d + pauseFor params e) with
      | none => none
      | some (tes, t') => some (⟨e, t, d⟩ :: tes, t')

/-- The outer loop of `build_script_structure` over scenes: each scene entry
records the clock before and after its elements, and `pause_after_scene` is
added after every scene (including the last). -/
def schedScenes (params : TimingParams) (chars : List (List Char × CharInfo)) :
    List PScene → ℚ → Option (List SceneEntry × ℚ)
  | [], t => some ([], t)
  | sc :: rest, t =>
    match schedElements params chars sc.elements t with
    | none => none
    | some (tes, endT) =>
      match schedScenes params chars rest (endT + params.pause_after_scene) with
      | none => none
      | some (entries, finalT) =>
        some (⟨sc.name, t, endT, endT - t, tes⟩ :: entries, finalT)

/-- A special-treatment dictionary, before timing resolution. -/
structure Treatment where
  description : List Char
  type : List Char
  category : Option (List Char) := none
  change_type : Option (List Char) := none
  direction : Option (List Char) := none
  narrative_linked : Bool := false
deriving DecidableEq, Repr

/-- A treatment after `_process_special_treatments` (optionally annotated
with `start_time`/`end_time`/`duration`/`affected_elements`). -/
structure TimedTreatment where
  base : Treatment
  start_time : Option ℚ := none
  end_time : Option ℚ := none
  duration : Option ℚ := none
  affected_elements : List TimedElem := []
deriving DecidableEq, Repr

/-- `ScriptStructureBuilder._process_special_treatments` for one treatment:
category-matched sound elements give min/max bounds; a narrative-linked
treatment is then stretched over the whole document span. -/
def processTreatment (timeline : List SceneEntry) (estDur : ℚ)
    (tr : Treatment) : TimedTreatment :=
  if tr.type ≠ "sound_treatment".toList then { base := tr }
  else
    let withCat : TimedTreatment :=
      match tr.category with
      | some cat =>
        let matched := (timeline.map (fun sc =>
          sc.elements.filter (fun te =>
            te.elem.type = "sound".toList && te.elem.category = some cat))).flatten
        match (matched.map (fun te => te.start_time)).min?,
              (matched.map (fun te => te.start_time + te.duration)).max? with
        | some s, some e2 =>
          { base := tr, start_time := some s, end_time := some e2,
            duration := some (e2 - s), affected_elements := matched }
        | _, _ => { base := tr }
      | none => { base := tr }
    if tr.narrative_linked then
      { withCat with
        start_time := some 0
        end_time := some estDur
        duration := some estDur }
    else withCat

/-- Decimal digits of a natural number. -/
def natDigits (n : Nat) : List Char :=
  Nat.toDigits 10 n

/-- The `divmod`-based `M:SS` rendering (durations produced by the builder
are non-negative, so `int` truncation is floor). -/
def formatDuration (est : ℚ) : List Char :=
  let minutes : Nat := (Int.toNat ⌊est / 60⌋)
  let secs : Nat := (Int.toNat ⌊est - 60 * (⌊est / 60⌋ : ℚ)⌋)
  natDigits minutes ++ [':'] ++
    (if secs < 10 then '0' :: natDigits secs else natDigits secs)

/-- `ScriptStructureBuilder._count_total_words` (dialogue elements in the
timeline always carry a `text` key when scheduling succeeded). -/
def countTotalWords (timeline : List SceneEntry) : Nat :=
  (timeline.map (fun sc =>
    (sc.elements.map (fun te =>
      if te.elem.type = "dialogue".toList then countWords (te.elem.text.getD [])
      else 0)).sum)).sum

/-- The unified structure returned by `build_script_structure` (metadata and
characters are passed through unchanged and omitted here). -/
structure ScriptStructure where
  timeline : List SceneEntry
  special_treatments : List TimedTreatment
  estimated_duration : ℚ
  formatted_duration : List Char
  word_count : Nat
deriving DecidableEq, Repr

/-- `ScriptStructureBuilder.build_script_structure`: schedule every scene
starting from clock 0, set `estimated_duration` to the final clock, resolve
special treatments against the timeline, and add the derived metadata. -/
def buildScriptStructure (params : TimingParams)
    (chars : List (List Char × CharInfo)) (scenes : List PScene)
    (treatments : List Treatment) : Option ScriptStructure :=
  match schedScenes params chars scenes 0 with
  | none => none
  | some (tl, total) =>
    some { timeline := tl
           special_treatments := treatments.map (processTreatment tl total)
           estimated_duration := total
           formatted_duration := formatDuration total
           word_count := countTotalWords tl }

/-! ### voice_profiles.voice_traits_to_parameters
(src/voice_generator/voice_profiles.py)

A trait's mapping entry is a partial patch: numeric fields are added to the
accumulating parameters when present, and the `effects` sub-dict is merged
key-by-key (later assignments overriding earlier ones).  No catalog entry
sets `gender` or `speaker_id`, so the patch record carries only the numeric
fields and `effects`.  Floats are modelled exactly as rationals. -/

/-- A partial parameter patch from `VOICE_TRAIT_MAPPINGS`. -/
structure TraitPatch where
  pitch : Option ℚ := none
  pitch_range : Option ℚ := none
  formant_shift : Option ℚ := none
  speed : Option ℚ := none
  volume : Option ℚ := none
  clarity : Option ℚ := none
  effects : List (List Char × List (List Char × ℚ)) := []
deriving DecidableEq, Repr

set_option maxHeartbeats 1600000 in
/-- `VOICE_TRAIT_MAPPINGS`, in source order.  The source dict literal lists
`"cheerful"` twice; Python keeps the first position with the last value
(`{"pitch": 2, "speed": 1.1}`), which is what the single entry below holds. -/
def voiceTraitMappings : List (List Char × TraitPatch) :=
  [("deep".toList, { pitch := some (-6), pitch_range := some (7/10), formant_shift := some (-(3/10)) }),
   ("low".toList, { pitch := some (-4), pitch_range := some (4/5), formant_shift := some (-(1/5)) }),
   ("baritone".toList, { pitch := some (-3), formant_shift := some (-(3/20)) }),
   ("bass".toList, { pitch := some (-5), pitch_range := some (7/10), formant_shift := some (-(1/4)) }),
   ("mid-range".toList, { pitch := some 0, pitch_range := some 1 }),
   ("medium".toList, { pitch := some 0, pitch_range := some 1 }),
   ("high".toList, { pitch := some 3, pitch_range := some (6/5), formant_shift := some (1/5) }),
   ("higher".toList, { pitch := some 4, pitch_range := some (13/10), formant_shift := some (3/10) }),
   ("soprano".toList, { pitch := some 6, pitch_range := some (7/5), formant_shift := some (2/5) }),
   ("slow".toList, { speed := some (17/20) }),
   ("deliberate".toList, { speed := some (9/10) }),
   ("measured".toList, { speed := some (19/20) }),
   ("normal".toList, { speed := some 1 }),
   ("fast".toList, { speed := some (23/20) }),
   ("fast-talking".toList, { speed := some (6/5) }),
   ("rapid".toList, { speed := some (5/4) }),
   ("gravelly".toList, { effects := [("distortion".toList, [("amount".toList, 1/10)])] }),
   ("rough".toList, { effects := [("distortion".toList, [("amount".toList, 2/25)])] }),
   ("smooth".toList, { effects := [("lowpass".toList, [("cutoff".toList, 4/5)])] }),
   ("raspy".toList, { effects := [("distortion".toList, [("amount".toList, 3/20)]),
                                  ("highpass".toList, [("cutoff".toList, 3/10)])] }),
   ("breathy".toList, { effects := [("noise".toList, [("amount".toList, 1/20)]),
                                    ("lowpass".toList, [("cutoff".toList, 7/10)])] }),
   ("warm".toList, { formant_shift := some (1/10),
                     effects := [("lowpass".toList, [("cutoff".toList, 3/4)])] }),
   ("bright".toList, { formant_shift := some (1/5),
                       effects := [("highpass".toList, [("cutoff".toList, 1/5)])] }),
   ("dark".toList, { formant_shift := some (-(1/5)),
                     effects := [("lowpass".toList, [("cutoff".toList, 3/5)])] }),
   ("resonant".toList, { effects := [("reverb".toList, [("room_size".toList, 3/10),
                                                        ("damping".toList, 1/2)])] }),
   ("melodic".toList, { pitch_range := some (13/10) }),
   ("monotone".toList, { pitch_range := some (3/5) }),
   ("confident".toList, { volume := some (6/5), speed := some (21/20) }),
   ("nervous".toList, { speed := some (11/10), pitch_range := some (6/5),
                        effects := [("tremolo".toList, [("depth".toList, 1/20),
                                                        ("rate".toList, 4)])] }),
   ("shy".toList, { volume := some (9/10), speed := some (19/20) }),
   ("authoritative".toList, { volume := some (23/20), pitch := some (-2) }),
   ("friendly".toList, { pitch_range := some (11/10), speed := some (21/20) }),
   ("threatening".toList, { pitch := some (-2),
                            effects := [("distortion".toList, [("amount".toList, 1/20)])] }),
   ("gentle".toList, { volume := some (9/10), speed := some (19/20) }),
   ("harsh".toList, { volume := some (11/10),
                      effects := [("highpass".toList, [("cutoff".toList, 3/10)])] }),
   ("sarcastic".toList, { pitch_range := some (13/10) }),
   ("jovial".toList, { pitch := some 1, pitch_range := some (6/5), speed := some (11/10) }),
   ("serious".toList, { pitch := some (-1), pitch_range := some (4/5), speed := some (19/20) }),
   ("anxious".toList, { speed := some (11/10), pitch_range := some (23/20),
                        effects := [("tremolo".toList, [("depth".toList, 1/25),
                                                        ("rate".toList, 5)])] }),
   ("sad".toList, { pitch := some (-1), speed := some (9/10), pitch_range := some (4/5) }),
   ("happy".toList, { pitch := some 1, speed := some (21/20), pitch_range := some (11/10) }),
   ("angry".toList, { pitch := some (-1), volume := some (6/5),
                      effects := [("distortion".toList, [("amount".toList, 1/20)])] }),
   ("cheerful".toList, { pitch := some 2, speed := some (11/10) }),
   ("depressed".toList, { pitch := some (-2), speed := some (17/20), pitch_range := some (7/10) }),
   ("excited".toList, { pitch := some 2, speed := some (23/20), pitch_range := some (13/10),
                        volume := some (23/20) }),
   ("bored".toList, { pitch := some (-1), speed := some (9/10), pitch_range := some (7/10) }),
   ("child".toList, { pitch := some 8, formant_shift := some (1/2), pitch_range := some (13/10) }),
   ("young".toList, { pitch := some 3, formant_shift := some (1/5), speed := some (21/20) }),
   ("teenage".toList, { pitch := some 2, formant_shift := some (1/10), speed := some (11/10) }),
   ("middle-aged".toList, { pitch := some 0, formant_shift := some 0 }),
   ("old".toList, { pitch := some (-2), formant_shift := some (-(1/10)), speed := some (9/10) }),
   ("elderly".toList, { pitch := some (-3), formant_shift := some (-(3/20)), speed := some (17/20) }),
   ("ancient".toList, { pitch := some (-4), formant_shift := some (-(1/5)), speed := some (4/5) }),
   ("rural".toList, { effects := [("reverb".toList, [("room_size".toList, 1/5),
                                                     ("damping".toList, 7/10)])] }),
   ("urban".toList, { speed := some (21/20) }),
   ("southern".toList, { pitch := some (-1), speed := some (9/10) }),
   ("northern".toList, { pitch := some 1, speed := some (21/20) }),
   ("western".toList, { pitch := some (-1) }),
   ("eastern".toList, { pitch := some 1 }),
   ("british".toList, { effects := [("eq".toList, [("high".toList, 6/5)])] }),
   ("american".toList, {}),
   ("city-accent".toList, { speed := some (11/10), pitch_range := some (11/10) }),
   ("country-accent".toList, { speed := some (19/20), pitch := some (-1) }),
   ("local-accent".toList, { speed := some (97/100) }),
   ("whispering".toList, { volume := some (7/10),
                           effects := [("noise".toList, [("amount".toList, 1/10)]),
                                       ("lowpass".toList, [("cutoff".toList, 3/5)])] }),
   ("shouting".toList, { volume := some (13/10),
                         effects := [("distortion".toList, [("amount".toList, 1/20)])] }),
   ("nasal".toList, { formant_shift := some (3/10),
                      effects := [("bandpass".toList, [("center".toList, 3/5),
                                                       ("q".toList, 1/2)])] }),
   ("hoarse".toList, { effects := [("distortion".toList, [("amount".toList, 3/25)]),
                                   ("lowpass".toList, [("cutoff".toList, 7/10)])] }),
   ("trembling".toList, { effects := [("tremolo".toList, [("depth".toList, 1/10),
                                                          ("rate".toList, 6)])] }),
   ("robotic".toList, { effects := [("vocoder".toList, [("bands".toList, 16)])] }),
   ("distant".toList, { volume := some (4/5),
                        effects := [("reverb".toList, [("room_size".toList, 7/10),
                                                       ("damping".toList, 1/2)])] }),
   ("close".toList, { volume := some (11/10) }),
   ("ethereal".toList, { effects := [("reverb".toList, [("room_size".toList, 9/10),
                                                        ("damping".toList, 3/10)])] }),
   ("narrator".toList, { clarity := some (6/5) }),
   ("seductive".toList, { speed := some (9/10), pitch_range := some (11/10),
                          volume := some (9/10) }),
   ("commanding".toList, { volume := some (6/5), pitch := some (-2) }),
   ("timid".toList, { volume := some (4/5), speed := some (19/20) }),
   ("stuttering".toList, { effects := [("stutter".toList, [("amount".toList, 1/5)])] }),
   ("mysterious".toList, { effects := [("reverb".toList, [("room_size".toList, 1/2),
                                                          ("damping".toList, 3/5)])] }),
   ("ominous".toList, { pitch := some (-3), speed := some (9/10),
                        effects := [("reverb".toList, [("room_size".toList, 3/5)])] }),
   ("frightened".toList, { speed := some (11/10), pitch := some 2,
                           effects := [("tremolo".toList, [("depth".toList, 2/25),
                                                           ("rate".toList, 7)])] }),
   ("wise".toList, { pitch := some (-1), speed := some (9/10) }),
   ("manipulative".toList, { pitch_range := some (6/5) }),
   ("observant".toList, { clarity := some (11/10) }),
   ("slightly-ominous".toList, { pitch := some (-1),
                                 effects := [("reverb".toList, [("room_size".toList, 3/10)])] }),
   ("controlling".toList, { volume := some (11/10), pitch := some (-1) }),
   ("weathered".toList, { effects := [("distortion".toList, [("amount".toList, 3/50)])] }),
   ("absent".toList, { effects := [("reverb".toList, [("room_size".toList, 2/5)])] })]

/-- The accumulating parameter dictionary of `voice_traits_to_parameters`. -/
structure VoiceParams where
  pitch : ℚ
  pitch_range : ℚ
  formant_shift : ℚ
  speed : ℚ
  volume : ℚ
  clarity : ℚ
  speaker_id : Option (List Char)
  gender : List Char
  effects : List (List Char × List (List Char × ℚ))
deriving DecidableEq, Repr

/-- The initial parameters of `voice_traits_to_parameters`. -/
def initialVoiceParams : VoiceParams :=
  { pitch := 0, pitch_range := 1, formant_shift := 0, speed := 1, volume := 1,
    clarity := 1, speaker_id := none, gender := "neutral".toList, effects := [] }

/-- Apply one trait's patch: numeric fields are added (a missing field adds
nothing), effect entries are stored key-by-key. -/
def applyTraitPatch (p : VoiceParams) (patch : TraitPatch) : VoiceParams :=
  { p with
    pitch := p.pitch + patch.pitch.getD 0
    pitch_range := p.pitch_range + patch.pitch_range.getD 0
    formant_shift := p.formant_shift + patch.formant_shift.getD 0
    speed := p.speed + patch.speed.getD 0
    volume := p.volume + patch.volume.getD 0
    clarity := p.clarity + patch.clarity.getD 0
    effects := patch.effects.foldl (fun es nps => aupsert nps.1 nps.2 es) p.effects }

/-- One iteration of the trait loop: lower-case the trait and apply its
catalog patch when the trait is recognized. -/
def applyTrait (p : VoiceParams) (trait : List Char) : VoiceParams :=
  match alookup (lowerStr trait) voiceTraitMappings with
  | some patch => applyTraitPatch p patch
  | none => p

/-- Gender inference when no trait set a gender. -/
def inferGender (p : VoiceParams) : VoiceParams :=
  if p.gender = "neutral".toList then
    if p.pitch < -2 ∨ p.formant_shift < -(1/10) then { p with gender := "male".toList }
    else if p.pitch > 2 ∨ p.formant_shift > 1/10 then { p with gender := "female".toList }
    else p
  else p

/-- Speaker-archetype inference when no `speaker_id` is set. -/
def inferSpeakerId (p : VoiceParams) : VoiceParams :=
  if p.speaker_id = none then
    if p.gender = "male".toList then
      if p.pitch < -3 then { p with speaker_id := some ("male_deep".toList) }
      else if p.pitch < 0 then { p with speaker_id := some ("male_medium".toList) }
      else { p with speaker_id := some ("male_light".toList) }
    else if p.gender = "female".toList then
      if p.pitch < 1 then { p with speaker_id := some ("female_deep".toList) }
      else if p.pitch < 3 then { p with speaker_id := some ("female_medium".toList) }
      else { p with speaker_id := some ("female_light".toList) }
    else { p with speaker_id := some ("neutral".toList) }
  else p

/-- Python `max(lo, min(hi, x))`. -/
def clampQ (lo hi x : ℚ) : ℚ :=
  max lo (min hi x)

/-- The final range clamps of `voice_traits_to_parameters`. -/
def clampVoiceParams (p : VoiceParams) : VoiceParams :=
  { p with
    pitch := clampQ (-12) 12 p.pitch
    pitch_range := clampQ (3/5) (3/2) p.pitch_range
    formant_shift := clampQ (-(1/2)) (1/2) p.formant_shift
    speed := clampQ (7/10) (13/10) p.speed
    volume := clampQ (3/5) (13/10) p.volume
    clarity := clampQ (7/10) (13/10) p.clarity }

/-- `voice_traits_to_parameters` just before the final clamps. -/
def preClampVoiceParams (traits : List (List Char)) : VoiceParams :=
  inferSpeakerId (inferGender (traits.foldl applyTrait initialVoiceParams))

/-- `voice_traits_to_parameters`. -/
def voiceTraitsToParameters (traits : List (List Char)) : VoiceParams :=
  clampVoiceParams (preClampVoiceParams traits)

/-! ### effects.apply_effect_chain (src/voice_generator/effects.py)

Audio buffers are lists of rational samples.  The nontrivial DSP bodies
(convolution with random impulse responses, librosa/pedalboard calls,
filters, random noise) are abstracted as fields of an `AudioEnv` oracle; all
guards and dispatch control flow are translated from the source. -/

/-- The parameter dict of one effect (`params.get(key, default)`). -/
def getParamD (ps : List (List Char × ℚ)) (k : List Char) (d : ℚ) : ℚ :=
  (alookup k ps).getD d

/-- Oracle for the library-backed DSP bodies of the effect functions. -/
structure AudioEnv where
  reverbImpl : List ℚ → ℚ → ℚ → ℚ → ℚ → ℚ → List ℚ
  echoImpl : List ℚ → ℚ → ℚ → ℚ → List ℚ
  pitchShiftImpl : List ℚ → ℚ → ℚ → List ℚ
  timestretchImpl : List ℚ → ℚ → ℚ → List ℚ
  distortionImpl : List ℚ → ℚ → ℚ → List ℚ
  tremoloImpl : List ℚ → ℚ → ℚ → ℚ → List ℚ
  filterImpl : List ℚ → List Char → ℚ → ℚ → ℚ → List ℚ
  eqImpl : List ℚ → ℚ → ℚ → ℚ → ℚ → List ℚ
  compressorImpl : List ℚ → ℚ → ℚ → ℚ → ℚ → ℚ → List ℚ
  noiseImpl : List ℚ → ℚ → ℚ → List ℚ

/-- `apply_reverb` (no guard: the body is the library computation). -/
def applyReverb (env : AudioEnv) (audio : List ℚ)
    (room_size damping wet_level dry_level sr : ℚ) : List ℚ :=
  env.reverbImpl audio room_size damping wet_level dry_level sr

/-- `apply_echo` (no guard). -/
def applyEcho (env : AudioEnv) (audio : List ℚ) (delay decay sr : ℚ) : List ℚ :=
  env.echoImpl audio delay decay sr

/-- `apply_pitch_shift`: a shift of magnitude below 0.1 semitones returns
the input buffer itself. -/
def applyPitchShift (env : AudioEnv) (audio : List ℚ) (semitones sr : ℚ) : List ℚ :=
  if |semitones| < 1/10 then audio
  else env.pitchShiftImpl audio semitones sr

/-- `apply_timestretch`: a rate within 0.01 of 1.0 returns the input buffer
itself. -/
def applyTimestretch (env : AudioEnv) (audio : List ℚ) (rate sr : ℚ) : List ℚ :=
  if |rate - 1| < 1/100 then audio
  else env.timestretchImpl audio rate sr

/-- `apply_distortion`: an amount below 0.01 returns the input buffer. -/
def applyDistortion (env : AudioEnv) (audio : List ℚ) (amount sr : ℚ) : List ℚ :=
  if amount < 1/100 then audio
  else env.distortionImpl audio amount sr

/-- `apply_tremolo`: a depth below 0.01 returns the input buffer. -/
def applyTremolo (env : AudioEnv) (audio : List ℚ) (depth rate sr : ℚ) : List ℚ :=
  if depth < 1/100 then audio
  else env.tremoloImpl audio depth rate sr

/-- `apply_filter` (no guard). -/
def applyFilter (env : AudioEnv) (audio : List ℚ) (filter_type : List Char)
    (cutoff q sr : ℚ) : List ℚ :=
  env.filterImpl audio filter_type cutoff q sr

/-- `apply_eq`: all three gains within 0.01 of 1.0 returns the input buffer. -/
def applyEq (env : AudioEnv) (audio : List ℚ) (low mid high sr : ℚ) : List ℚ :=
  if |low - 1| < 1/100 ∧ |mid - 1| < 1/100 ∧ |high - 1| < 1/100 then audio
  else env.eqImpl audio low mid high sr

/-- `apply_compressor` (no guard). -/
def applyCompressor (env : AudioEnv) (audio : List ℚ)
    (threshold ratio attack release sr : ℚ) : List ℚ :=
  env.compressorImpl audio threshold ratio attack release sr

/-- `apply_noise`: an amount below 0.001 returns the input buffer. -/
def applyNoise (env : AudioEnv) (audio : List ℚ) (amount sr : ℚ) : List ℚ :=
  if amount < 1/1000 then audio
  else env.noiseImpl audio amount sr

/-- The dispatch of one chain entry by effect name, with the `params.get`
defaults of `apply_effect_chain`; an unknown name leaves the buffer
untouched. -/
def dispatchEffect (env : AudioEnv) (processed : List ℚ) (name : List Char)
    (ps : List (List Char × ℚ)) (sr : ℚ) : List ℚ :=
  if name = "reverb".toList then
    applyReverb env processed (getParamD ps ("room_size".toList) (1/2))
      (getParamD ps ("damping".toList) (1/2))
      (getParamD ps ("wet_level".toList) (33/100))
      (getParamD ps ("dry_level".toList) (2/5)) sr
  else if name = "echo".toList ∨ name = "delay".toList then
    applyEcho env processed (getParamD ps ("delay".toList) (3/10))
      (getParamD ps ("decay".toList) (1/2)) sr
  else if name = "pitch_shift".toList then
    applyPitchShift env processed (getParamD ps ("semitones".toList) 0) sr
  else if name = "timestretch".toList then
    applyTimestretch env processed (getParamD ps ("rate".toList) 1) sr
  else if name = "distortion".toList then
    applyDistortion env processed (getParamD ps ("amount".toList) (1/10)) sr
  else if name = "tremolo".toList then
    applyTremolo env processed (getParamD ps ("depth".toList) (1/2))
      (getParamD ps ("rate".toList) 5) sr
  else if name = "lowpass".toList ∨ name = "highpass".toList ∨ name = "bandpass".toList then
    applyFilter env processed name (getParamD ps ("cutoff".toList) (1/2))
      (getParamD ps ("q".toList) 1) sr
  else if name = "eq".toList then
    applyEq env processed (getParamD ps ("low".toList) 1)
      (getParamD ps ("mid".toList) 1) (getParamD ps ("high".toList) 1) sr
  else if name = "compressor".toList then
    applyCompressor env processed (getParamD ps ("threshold".toList) (-20))
      (getParamD ps ("ratio".toList) 4) (getParamD ps ("attack".toList) (1/200))
      (getParamD ps ("release".toList) (1/10)) sr
  else if name = "noise".toList then
    applyNoise env processed (getParamD ps ("amount".toList) (1/100)) sr
  else processed

/-- `apply_effect_chain`: an empty map returns the input buffer itself, else
each named effect is applied in declaration order to the accumulating
buffer. -/
def applyEffectChain (env : AudioEnv) (audio : List ℚ)
    (effects : List (List Char × List (List Char × ℚ))) (sr : ℚ) : List ℚ :=
  if effects = [] then audio
  else effects.foldl (fun processed nps => dispatchEffect env processed nps.1 nps.2 sr) audio

/-! ### voice_generator.apply_voice_effect
(src/voice_generator/voice_generator.py)

The whole body runs inside `try/except`; file reads and writes and the
library-backed effect application are abstracted as a fallible oracle. -/

/-- Index of the last occurrence of `c` in `s`. -/
def lastIndexOf (c : Char) (s : List Char) : Option Nat :=
  (s.enum.filterMap (fun ic => if ic.2 = c then some ic.1 else none)).max?

/-- `os.path.splitext(p)[0]` (POSIX rules): split at the last dot that lies
after the last slash, unless every basename character before it is a dot. -/
def splitextRoot (p : List Char) : List Char :=
  let b := match lastIndexOf '/' p with
    | some i => i + 1
    | none => 0
  match lastIndexOf '.' p with
  | some d =>
    if b ≤ d ∧ ((p.drop b).take (d - b)).any (fun c => c ≠ '.') then p.take d
    else p
  | none => p

/-- Oracle for the fallible steps of `apply_voice_effect`: `sf.read`, the
library-backed run of `apply_effect_chain`, and `sf.write`.  An `Except`
error stands for a raised exception. -/
structure FileOpsEnv where
  readAudio : List Char → Except (List Char) (List ℚ × ℚ)
  runChain : List ℚ → List (List Char × List (List Char × ℚ)) → ℚ →
    Except (List Char) (List ℚ)
  writeAudio : List Char → List ℚ → ℚ → Except (List Char) Unit

/-- The output path used by `apply_voice_effect` when none is supplied:
`f"{os.path.splitext(audio_path)[0]}_{effect_type}.wav"`. -/
def voiceEffectOutPath (audioPath effectType : List Char)
    (outputPath : Option (List Char)) : List Char :=
  match outputPath with
  | some p => p
  | none => splitextRoot audioPath ++ ('_' :: effectType) ++ ".wav".toList

/-- Whether every stage of `apply_voice_effect` (read, effect chain, write)
succeeds in the given world. -/
def voiceEffectOk (w : FileOpsEnv) (audioPath effectType : List Char)
    (ps : List (List Char × ℚ)) (outputPath : Option (List Char)) : Bool :=
  match w.readAudio audioPath with
  | .error _ => false
  | .ok (audio, sr) =>
    match w.runChain audio [(effectType, ps)] sr with
    | .error _ => false
    | .ok processed =>
      match w.writeAudio (voiceEffectOutPath audioPath effectType outputPath) processed sr with
      | .error _ => false
      | .ok _ => true

/-- `apply_voice_effect`: read the file, apply the single-entry effect
chain, write the result and return the output path; any raised exception is
caught and the original input path is returned. -/
def applyVoiceEffect (w : FileOpsEnv) (audioPath effectType : List Char)
    (ps : List (List Char × ℚ)) (outputPath : Option (List Char)) : List Char :=
  let outPath := voiceEffectOutPath audioPath effectType outputPath
  match w.readAudio audioPath with
  | .error _ => audioPath
  | .ok (audio, sr) =>
    match w.runChain audio [(effectType, ps)] sr with
    | .error _ => audioPath
    | .ok processed =>
      match w.writeAudio outPath processed sr with
      | .error _ => audioPath
      | .ok _ => outPath

/-! ### ScriptParser._parse_content (src/script_parser/parser.py) and
validator.validate_script (src/script_parser/validator.py)

The alternate-dialect parser is entirely line-anchored (`re.MULTILINE`), so
it is modelled on the list of lines of the content.  Section regexes of the
form `^## X$.*?(?=^##|\Z)` select the exact header line plus the following
lines up to (excluding) the next line starting with `##`. -/

/-- ASCII `[A-Z]`. -/
def asciiUpper (c : Char) : Bool :=
  'A' ≤ c && c ≤ 'Z'

/-- ASCII `[a-z]`. -/
def asciiLower (c : Char) : Bool :=
  'a' ≤ c && c ≤ 'z'

/-- Python `str.isupper()` for strings over `[a-zA-Z-]`: at least one
letter, and no lowercase letter. -/
def pyIsUpper (m : List Char) : Bool :=
  m.any asciiUpper && !(m.any asciiLower)

/-- The lines of the section starting at the exact header line `hdr`, up to
(excluding) the next line starting with `##`. -/
def findSection (hdr : List Char) : List (List Char) → Option (List (List Char))
  | [] => none
  | l :: rest =>
    if l = hdr then some (l :: rest.takeWhile (fun l' => !hasPrefixStr ("##".toList) l'))
    else findSection hdr rest

/-- First line of the form `pre` followed by at least one character,
returning the remainder (regex `^PRE(.+)$` searched over lines). -/
def findPrefixedLine (pre : List Char) : List (List Char) → Option (List Char)
  | [] => none
  | l :: rest =>
    if hasPrefixStr pre l && l.drop pre.length ≠ [] then some (l.drop pre.length)
    else findPrefixedLine pre rest

/-- One line matched against `^([A-Z]+): (.+)$` (the voice/effect definition
pattern): a non-empty maximal uppercase run, then `: `, then a non-empty
remainder. -/
def defLine (l : List Char) : Option (List Char × List Char) :=
  let u := l.takeWhile asciiUpper
  let rest := l.drop u.length
  if u ≠ [] ∧ hasPrefixStr (": ".toList) rest ∧ rest.drop 2 ≠ [] then
    some (u, rest.drop 2)
  else none

/-- `finditer` of the definition pattern over a section's lines, assigning
into an insertion-ordered dict. -/
def collectDefs (ls : List (List Char)) : List (List Char × List (List Char)) :=
  ls.foldl (fun acc l =>
    match defLine l with
    | some (code, traitsStr) =>
      aupsert (stripStr code) ((splitOnChar '|' (stripStr traitsStr)).map stripStr) acc
    | none => acc) []

/-- A line matched against `^## SCENE:([A-Z_]+)$`. -/
def sceneHeaderName (l : List Char) : Option (List Char) :=
  if hasPrefixStr ("## SCENE:".toList) l ∧ l.drop 9 ≠ [] ∧
      (l.drop 9).all (fun c => asciiUpper c || c = '_') then
    some (l.drop 9)
  else none

/-- `ScriptParser._parse_line` on a stripped non-empty line: the dialogue
pattern `^([A-Z]+)(?:\|([a-zA-Z-]+))?: (.+)$` (an all-caps modifier becomes
`effect`, otherwise `modifier`), then the four bracketed cue patterns;
an unrecognized line yields `none` (logged warning only). -/
def parseLineAlt (line : List Char) : Option PElem :=
  let u := line.takeWhile asciiUpper
  let afterU := line.drop u.length
  let dialogue : Option PElem :=
    if u ≠ [] ∧ hasPrefixStr (": ".toList) afterU ∧ afterU.drop 2 ≠ [] then
      some { type := "dialogue".toList, character := some u, text := some (afterU.drop 2) }
    else if u ≠ [] ∧ afterU.head? = some '|' then
      let r2 := afterU.drop 1
      let m := r2.takeWhile (fun c => asciiUpper c || asciiLower c || c = '-')
      let r3 := r2.drop m.length
      if m ≠ [] ∧ hasPrefixStr (": ".toList) r3 ∧ r3.drop 2 ≠ [] then
        if pyIsUpper m then
          some { type := "dialogue".toList, character := some u,
                 text := some (r3.drop 2), effect := some m }
        else
          some { type := "dialogue".toList, character := some u,
                 text := some (r3.drop 2), modifier := some m }
      else none
    else none
  if dialogue.isSome then dialogue
  else if hasPrefixStr ("[SFX] ".toList) line ∧ line.drop 6 ≠ [] then
    some { type := "sound".toList, subtype := some ("sfx".toList),
           description := some (stripStr (line.drop 6)) }
  else if hasPrefixStr ("[AMBIENT] ".toList) line ∧ line.drop 10 ≠ [] then
    some { type := "sound".toList, subtype := some ("ambient".toList),
           description := some (stripStr (line.drop 10)) }
  else if hasPrefixStr ("[MUSIC] ".toList) line ∧ line.drop 8 ≠ [] then
    some { type := "sound".toList, subtype := some ("music".toList),
           description := some (stripStr (line.drop 8)) }
  else if hasPrefixStr ("[TRANSITION] ".toList) line ∧ line.drop 13 ≠ [] then
    some { type := "transition".toList, description := some (stripStr (line.drop 13)) }
  else none

/-- `ScriptParser._parse_scene_elements`: strip each line, skip blanks,
collect recognized elements in order. -/
def parseElemsAlt (lines : List (List Char)) : List PElem :=
  (lines.map (fun l =>
    let s := stripStr l
    if s = [] then []
    else
      match parseLineAlt s with
      | some e => [e]
      | none => [])).flatten

/-- `ScriptParser._parse_scenes`: every `^## SCENE:([A-Z_]+)$` line starts a
scene whose content runs to the next line starting with `##`. -/
def scenesAlt : List (List Char) → List PScene
  | [] => []
  | l :: rest =>
    match sceneHeaderName l with
    | some nm =>
      ⟨stripStr nm, parseElemsAlt (rest.takeWhile (fun l' => !hasPrefixStr ("##".toList) l'))⟩ ::
        scenesAlt rest
    | none => scenesAlt rest

/-- The `metadata` dict of the parsed structure (each `Option` field is an
optionally-present key). -/
structure PMeta where
  main_title : Option (List Char) := none
  title : Option (List Char) := none
  runtime : Option (List Char) := none
  premise : Option (List Char) := none
deriving DecidableEq, Repr

/-- The structure returned by `ScriptParser._parse_content`: the four keys
are always present (characters and effects as insertion-ordered dicts). -/
structure ParsedScript where
  metadata : PMeta
  characters : List (List Char × List (List Char))
  effects : List (List Char × List (List Char))
  scenes : List PScene
deriving DecidableEq, Repr

/-- First line matching the title pattern `^# (.+)$`. -/
def findTitleLine : List (List Char) → Option (List Char)
  | [] => none
  | l :: rest =>
    if hasPrefixStr ("# ".toList) l && l.drop 2 ≠ [] then some (l.drop 2)
    else findTitleLine rest

/-- `ScriptParser._parse_content` (total: no regex step can raise; the
trailing reference validation only logs warnings, see `softWarnings`). -/
def parseContentAlt (content : List Char) : ParsedScript :=
  let lines := splitOnChar '\n' content
  let metaL := (findSection ("## META".toList) lines).getD []
  { metadata :=
      { main_title := (findTitleLine lines).map stripStr
        title := (findPrefixedLine ("TITLE: ".toList) metaL).map stripStr
        runtime := (findPrefixedLine ("RUNTIME: ".toList) metaL).map stripStr
        premise := (findPrefixedLine ("PREMISE: ".toList) metaL).map stripStr }
    characters := collectDefs ((findSection ("## VOICES".toList) lines).getD [])
    effects := collectDefs ((findSection ("## EFFECTS".toList) lines).getD [])
    scenes := scenesAlt lines }

/-- Key-presence test for the insertion-ordered dicts. -/
def hasKey (k : List Char) (l : List (List Char × α)) : Bool :=
  (alookup k l).isSome

/-- `ScriptParser._validate_script_data`: the warnings logged (this function
raises nothing; an undefined character reference produces only a log line). -/
def softWarnings (d : ParsedScript) : List (List Char) :=
  (if d.metadata.title.getD [] = [] then
     ["Script is missing title in metadata".toList] else []) ++
  (if d.metadata.premise.getD [] = [] then
     ["Script is missing premise in metadata".toList] else []) ++
  (if d.characters = [] then ["Script has no character definitions".toList] else []) ++
  (if d.scenes = [] then ["Script has no scenes".toList] else []) ++
  (d.scenes.map (fun sc =>
    (sc.elements.map (fun e =>
      if e.type = "dialogue".toList then
        (match e.character with
         | some c =>
           if !hasKey c d.characters then
             ["Dialogue references undefined character: ".toList ++ c] else []
         | none => []) ++
        (match e.effect with
         | some ef =>
           if !hasKey ef d.effects then
             ["Dialogue references undefined effect: ".toList ++ ef] else []
         | none => [])
      else [])).flatten)).flatten

/-- The undefined-character errors of `validate_script` (element indices by
`enumerate`; an error is recorded only for a truthy character code absent
from the character dict). -/
def charRefErrors (d : ParsedScript) : List (List Char) :=
  (d.scenes.map (fun sc =>
    (sc.elements.enum.map (fun ie =>
      if ie.2.type = "dialogue".toList then
        match ie.2.character with
        | some c =>
          if c ≠ [] ∧ ¬hasKey c d.characters then
            ["Scene ".toList ++ sc.name ++ ", element ".toList ++ natDigits ie.1 ++
             ": References undefined character '".toList ++ c ++ ['\'']]
          else []
        | none => []
      else [])).flatten)).flatten

/-- The undefined-effect errors of `validate_script`. -/
def effectRefErrors (d : ParsedScript) : List (List Char) :=
  (d.scenes.map (fun sc =>
    (sc.elements.enum.map (fun ie =>
      if ie.2.type = "dialogue".toList then
        match ie.2.effect with
        | some ef =>
          if ¬hasKey ef d.effects then
            ["Scene ".toList ++ sc.name ++ ", element ".toList ++ natDigits ie.1 ++
             ": References undefined effect '".toList ++ ef ++ ['\'']]
          else []
        | none => []
      else [])).flatten)).flatten

/-- `validator.validate_script` on a parser-shaped structure (the four
top-level keys are always present there, so the `not in script_data`
branches of the source cannot fire): returns `(errors == [], errors)`. -/
def validateScript (d : ParsedScript) : Bool × List (List Char) :=
  let errs :=
    (if d.metadata.title = none then ["Script is missing title in metadata".toList] else []) ++
    (if d.metadata.runtime = none then ["Script is missing runtime in metadata".toList] else []) ++
    (if d.metadata.premise = none then ["Script is missing premise in metadata".toList] else []) ++
    (if d.characters = [] then ["Script has no character definitions".toList] else []) ++
    (if d.scenes = [] then ["Script has no scenes".toList] else []) ++
    charRefErrors d ++ effectRefErrors d
  (errs = [], errs)

/-! ### Derived notions used by the theorem statements -/

/-- Bool test for the `'sound'` element type. -/
def isSoundType (e : PElem) : Bool :=
  e.type = "sound".toList

/-- Bool test for the `'dialogue'` element type. -/
def isDialogueType (e : PElem) : Bool :=
  e.type = "dialogue".toList

/-- Number of sound elements over all scenes. -/
def countSounds (scenes : List PScene) : Nat :=
  (scenes.map (fun sc => sc.elements.countP isSoundType)).sum

/-- Number of dialogue elements over all scenes. -/
def countDialogues (scenes : List PScene) : Nat :=
  (scenes.map (fun sc => sc.elements.countP isDialogueType)).sum

/-- Sum of every element's computed duration over all scenes. -/
def elementDurationSum (params : TimingParams)
    (chars : List (List Char × CharInfo)) (scenes : List PScene) : ℚ :=
  (scenes.map (fun sc =>
    (sc.elements.map (fun e =>
      (calcElementDuration params chars e).getD 0)).sum)).sum

/-- An element is a Sound element, or a Dialogue element (which, as built by
either parser, carries its `character` and `text` keys). -/
def goodElem (e : PElem) : Prop :=
  e.type = "sound".toList ∨
    (e.type = "dialogue".toList ∧ e.character ≠ none ∧ e.text ≠ none)

instance (e : PElem) : Decidable (goodElem e) := by
  unfold goodElem
  infer_instance

/-- A plain fragment for the dialogue-line forms: already stripped,
non-empty, and free of `*`, `[` and newlines. -/
def plainStr (s : List Char) : Prop :=
  stripStr s = s ∧ s ≠ [] ∧ ∀ ch ∈ s, ch ≠ '*' ∧ ch ≠ '[' ∧ ch ≠ '\n'

instance (s : List Char) : Decidable (plainStr s) := by
  unfold plainStr
  infer_instance

/-- The scene line `**c**: t` (colon outside the bold name). -/
def dialogueLine1 (c t : List Char) : List Char :=
  '*' :: '*' :: (c ++ ('*' :: '*' :: ':' :: ' ' :: t))

/-- The scene line `**c** (e): t` (inline emotion). -/
def dialogueLine2 (c e t : List Char) : List Char :=
  '*' :: '*' :: (c ++ ('*' :: '*' :: ' ' :: '(' :: (e ++ (')' :: ':' :: ' ' :: t))))

/-- The scene line `**c**: (e) t` (emotion leading the text). -/
def dialogueLine3 (c e t : List Char) : List Char :=
  '*' :: '*' :: (c ++ ('*' :: '*' :: ':' :: ' ' :: '(' :: (e ++ (')' :: ' ' :: t))))

/-- A two-scene demonstration input whose elements are all Sound or
Dialogue. -/
def demoScenes : List PScene :=
  [⟨"SCENE_ONE".toList,
    [{ type := "sound".toList, description := some ("door creaking open".toList) },
     { type := "dialogue".toList, character := some ("John".toList),
       text := some ("Hello there my friend.".toList) },
     { type := "sound".toList, description := some ("heavy rain".toList),
       durationMod := some ("long".toList) }]⟩,
   ⟨"SCENE_TWO".toList,
    [{ type := "dialogue".toList, character := some ("Mary".toList),
       text := some ("I should get that.".toList), emotion := some ("sad".toList) }]⟩]

/-- A single-scene demonstration input containing a Transition element. -/
def demoTransitionScenes : List PScene :=
  [⟨"SCENE_ONE".toList,
    [{ type := "dialogue".toList, character := some ("John".toList),
       text := some ("Hello.".toList) },
     { type := "transition".toList, description := some ("fade out".toList) }]⟩]

/-- A concrete DSP oracle (identity bodies), used to instantiate theorems
about the effect functions on concrete inputs. -/
def constAudioEnv : AudioEnv :=
  { reverbImpl := fun a _ _ _ _ _ => a
    echoImpl := fun a _ _ _ => a
    pitchShiftImpl := fun a _ _ => a
    timestretchImpl := fun a _ _ => a
    distortionImpl := fun a _ _ => a
    tremoloImpl := fun a _ _ _ => a
    filterImpl := fun a _ _ _ _ => a
    eqImpl := fun a _ _ _ _ => a
    compressorImpl := fun a _ _ _ _ _ => a
    noiseImpl := fun a _ _ => a }

/-- A concrete alternate-dialect script defining only the character `NARR`
while a scene line speaks as the undefined `BOB`. -/
def sampleContentAlt : List Char :=
  ("# T\n## META\nTITLE: T\nRUNTIME: 5\nPREMISE: P\n## VOICES\nNARR: deep\n" ++
   "## SCENE:OPENING\nNARR: Hi.\nBOB: Yo.\n").toList

/-! ## Theorems -/

/-- `lo ≤ max lo (min hi x)`. -/
theorem le_clampQ (lo hi x : ℚ) : lo ≤ clampQ lo hi x :=
  le_max_left _ _

/-- `max lo (min hi x) ≤ hi` when `lo ≤ hi`. -/
theorem clampQ_le {lo hi : ℚ} (h : lo ≤ hi) (x : ℚ) : clampQ lo hi x ≤ hi :=
  max_le h (min_le_left _ _)

/-- C4: sound-cue categorization checks the weather keyword list first, the
electronic keyword list second, then the general category table in declared
order with default `misc` (stated as equality with the spec-worded
`categorizeSoundCueSpec`), and the ten example descriptions categorize as
door closing→object, rain falling→weather, thunder crash→weather, phone
ringing→electronic, dog barking→animal, footsteps on gravel→object, ambient
city noises→ambient, flashback transition→transition, heartbeat→human,
piano melody→musical. -/
theorem categorize_sound_cue_follows_spec_order_and_examples :
    (∀ d, categorizeSoundCue d = categorizeSoundCueSpec d) ∧
    categorizeSoundCue ("door closing".toList) = "object".toList ∧
    categorizeSoundCue ("rain falling".toList) = "weather".toList ∧
    categorizeSoundCue ("thunder crash".toList) = "weather".toList ∧
    categorizeSoundCue ("phone ringing".toList) = "electronic".toList ∧
    categorizeSoundCue ("dog barking".toList) = "animal".toList ∧
    categorizeSoundCue ("footsteps on gravel".toList) = "object".toList ∧
    categorizeSoundCue ("ambient city noises".toList) = "ambient".toList ∧
    categorizeSoundCue ("flashback transition".toList) = "transition".toList ∧
    categorizeSoundCue ("heartbeat".toList) = "human".toList ∧
    categorizeSoundCue ("piano melody".toList) = "musical".toList :=
  ⟨fun _ => rfl, by decide, by decide, by decide, by decide, by decide,
   by decide, by decide, by decide, by decide, by decide⟩

/-- C5: for every trait-list input, the output of
`voice_traits_to_parameters` satisfies pitch ∈ [-12, 12], pitch_range ∈
[0.6, 1.5], formant_shift ∈ [-0.5, 0.5], speed ∈ [0.7, 1.3], volume ∈
[0.6, 1.3] and clarity ∈ [0.7, 1.3], conflicting traits included. -/
theorem voice_traits_to_parameters_clamped (traits : List (List Char)) :
    (-12 ≤ (voiceTraitsToParameters traits).pitch ∧
      (voiceTraitsToParameters traits).pitch ≤ 12) ∧
    (3/5 ≤ (voiceTraitsToParameters traits).pitch_range ∧
      (voiceTraitsToParameters traits).pitch_range ≤ 3/2) ∧
    (-(1/2) ≤ (voiceTraitsToParameters traits).formant_shift ∧
      (voiceTraitsToParameters traits).formant_shift ≤ 1/2) ∧
    (7/10 ≤ (voiceTraitsToParameters traits).speed ∧
      (voiceTraitsToParameters traits).speed ≤ 13/10) ∧
    (3/5 ≤ (voiceTraitsToParameters traits).volume ∧
      (voiceTraitsToParameters traits).volume ≤ 13/10) ∧
    (7/10 ≤ (voiceTraitsToParameters traits).clarity ∧
      (voiceTraitsToParameters traits).clarity ≤ 13/10) := by
  dsimp only [voiceTraitsToParameters, clampVoiceParams]
  exact ⟨⟨le_clampQ _ _ _, clampQ_le (by norm_num) _⟩,
    ⟨le_clampQ _ _ _, clampQ_le (by norm_num) _⟩,
    ⟨le_clampQ _ _ _, clampQ_le (by norm_num) _⟩,
    ⟨le_clampQ _ _ _, clampQ_le (by norm_num) _⟩,
    ⟨le_clampQ _ _ _, clampQ_le (by norm_num) _⟩,
    ⟨le_clampQ _ _ _, clampQ_le (by norm_num) _⟩⟩

/-- C6: `apply_effect_chain` with an empty effects map returns the input
buffer itself, `apply_pitch_shift` with |semitones| < 0.1 returns the input
buffer, and `apply_timestretch` with |rate − 1| < 0.01 returns the input
buffer — for every DSP oracle, buffer and sample rate. -/
theorem effect_chain_identity_laws (env : AudioEnv) (audio : List ℚ) (sr : ℚ) :
    applyEffectChain env audio [] sr = audio ∧
    (∀ semitones : ℚ, |semitones| < 1/10 →
      applyPitchShift env audio semitones sr = audio) ∧
    (∀ rate : ℚ, |rate - 1| < 1/100 →
      applyTimestretch env audio rate sr = audio) := by
  refine ⟨rfl, fun s hs => ?_, fun r hr => ?_⟩
  · exact if_pos hs
  · exact if_pos hr

/-- Witness for C6 at a concrete buffer, oracle, and parameters. -/
theorem effect_chain_identity_laws_witness :
    applyEffectChain constAudioEnv [1, 0] [] 22050 = [1, 0] ∧
    applyPitchShift constAudioEnv [1, 0] 0 22050 = [1, 0] ∧
    applyTimestretch constAudioEnv [1, 0] 1 22050 = [1, 0] :=
  ⟨(effect_chain_identity_laws constAudioEnv [1, 0] 22050).1,
   (effect_chain_identity_laws constAudioEnv [1, 0] 22050).2.1 0 (by norm_num),
   (effect_chain_identity_laws constAudioEnv [1, 0] 22050).2.2 1 (by norm_num)⟩

/-- C8: `apply_voice_effect` returns the resolved output path exactly when
reading, applying the effect, and writing all succeed, and otherwise (any
stage raising) returns the original input path unchanged. -/
theorem apply_voice_effect_error_handling (w : FileOpsEnv)
    (audioPath effectType : List Char) (ps : List (List Char × ℚ))
    (outputPath : Option (List Char)) :
    applyVoiceEffect w audioPath effectType ps outputPath =
      if voiceEffectOk w audioPath effectType ps outputPath then
        voiceEffectOutPath audioPath effectType outputPath
      else audioPath := by
  unfold applyVoiceEffect voiceEffectOk
  rcases hr : w.readAudio audioPath with e | asr
  · simp
  · obtain ⟨a, sr⟩ := asr
    rcases hc : w.runChain a [(effectType, ps)] sr with e | pr
    · simp [hc]
    · rcases hw : w.writeAudio (voiceEffectOutPath audioPath effectType outputPath) pr sr with e | u
      · simp [hc, hw]
      · simp [hc, hw]

/-- The scene-element pauses of the default parameters are non-negative. -/
theorem pauseFor_nonneg (e : PElem) : 0 ≤ pauseFor defaultTimingParams e := by
  unfold pauseFor
  split_ifs <;> norm_num [defaultTimingParams]

/-- The default sound duration is non-negative whatever the modifier. -/
theorem soundDuration_default_nonneg (e : PElem) :
    0 ≤ soundDuration defaultTimingParams e := by
  rcases h : e.durationMod with _ | m
  · simp [soundDuration, h, defaultTimingParams]
  · simp only [soundDuration, h]
    split_ifs <;> norm_num [defaultTimingParams]

/-- The effective words-per-minute rate is positive under the defaults. -/
theorem dialogueWpm_default_pos (chars : List (List Char × CharInfo))
    (ch : List Char) : 0 < dialogueWpm defaultTimingParams chars ch := by
  rcases h1 : alookup ch chars with _ | info
  · simp [dialogueWpm, h1, defaultTimingParams]
  · rcases h2 : info.voice_profile with _ | vp
    · simp [dialogueWpm, h1, h2, defaultTimingParams]
    · rcases h3 : vp.speed with _ | sp
      · simp [dialogueWpm, h1, h2, h3, defaultTimingParams]
      · simp only [dialogueWpm, h1, h2, h3]
        split_ifs <;> norm_num [defaultTimingParams]

/-- The emotion adjustment preserves non-negativity. -/
theorem applyEmotion_nonneg (emotion : Option (List Char)) (d : ℚ)
    (h : 0 ≤ d) : 0 ≤ applyEmotion emotion d := by
  rcases emotion with _ | em
  · exact h
  · simp only [applyEmotion]
    split_ifs <;> nlinarith

/-- The internal-thought adjustment preserves non-negativity. -/
theorem applyInternal_nonneg (b : Bool) (d : ℚ) (h : 0 ≤ d) :
    0 ≤ applyInternal b d := by
  unfold applyInternal
  split_ifs <;> nlinarith

/-- With the default parameters, every duration computed by
`_calculate_element_duration` is non-negative. -/
theorem calc_default_nonneg (chars : List (List Char × CharInfo)) (e : PElem)
    (d : ℚ) (h : calcElementDuration defaultTimingParams chars e = some d) :
    0 ≤ d := by
  unfold calcElementDuration at h
  split_ifs at h with hs hd
  · injection h with h'
    rw [← h']
    exact soundDuration_default_nonneg e
  · rcases hch : e.character with _ | ch <;> rw [hch] at h
    · exact absurd h (by simp)
    rcases htx : e.text with _ | tx <;> rw [htx] at h
    · exact absurd h (by simp)
    injection h with h'
    rw [← h']
    refine applyInternal_nonneg _ _ (applyEmotion_nonneg _ _ ?_)
    have := dialogueWpm_default_pos chars ch
    positivity

/-- With the default parameters, the `getD 0` duration of any element is
non-negative. -/
theorem calc_default_getD_nonneg (chars : List (List Char × CharInfo))
    (e : PElem) : 0 ≤ (calcElementDuration defaultTimingParams chars e).getD 0 := by
  rcases h : calcElementDuration defaultTimingParams chars e with _ | d
  · simp
  · simpa using calc_default_nonneg chars e d h

/-- A Sound or Dialogue element always receives a duration. -/
theorem calc_good_isSome (chars : List (List Char × CharInfo)) (e : PElem)
    (h : goodElem e) :
    ∃ d, calcElementDuration defaultTimingParams chars e = some d := by
  rcases h with hs | ⟨hd, hc, ht⟩
  · refine ⟨soundDuration defaultTimingParams e, ?_⟩
    unfold calcElementDuration
    rw [if_pos hs]
  · obtain ⟨ch, hch⟩ := Option.ne_none_iff_exists'.mp hc
    obtain ⟨tx, htx⟩ := Option.ne_none_iff_exists'.mp ht
    refine ⟨applyInternal e.isInternal (applyEmotion e.emotion
      ((countWords tx : ℚ) / dialogueWpm defaultTimingParams chars ch * 60)), ?_⟩
    unfold calcElementDuration
    rw [if_neg (by rw [hd]; decide), if_pos hd, hch, htx]

/-- Scheduling a list of Sound/Dialogue elements succeeds, advances the
clock by the duration total plus the per-type pauses, never runs backwards,
and gives every scheduled element a non-negative duration. -/
theorem schedElements_spec (chars : List (List Char × CharInfo)) :
    ∀ (es : List PElem) (t : ℚ), (∀ e ∈ es, goodElem e) →
    ∃ tes t', schedElements defaultTimingParams chars es t = some (tes, t') ∧
      t' = t + (es.map (fun e =>
          (calcElementDuration defaultTimingParams chars e).getD 0)).sum
        + defaultTimingParams.pause_after_sound * (es.countP isSoundType : ℚ)
        + defaultTimingParams.pause_between_speakers * (es.countP isDialogueType : ℚ) ∧
      t ≤ t' ∧ ∀ te ∈ tes, 0 ≤ te.duration := by
  intro es
  induction es with
  | nil =>
    intro t _
    exact ⟨[], t, rfl, by simp, le_refl t, by simp⟩
  | cons e es ih =>
    intro t h
    have hge : goodElem e := h e (List.mem_cons_self e es)
    obtain ⟨d, hd⟩ := calc_good_isSome chars e hge
    have hd0 : 0 ≤ d := calc_default_nonneg chars e d hd
    obtain ⟨tes, t', hrec, ht', hle, hdur⟩ :=
      ih (t + d + pauseFor defaultTimingParams e) (fun x hx => h x (List.mem_cons_of_mem e hx))
    refine ⟨⟨e, t, d⟩ :: tes, t', ?_, ?_, ?_, ?_⟩
    · simp only [schedElements, hd, hrec]
    · rw [ht']
      rcases hge with hs | ⟨hdl, _, _⟩
      · have hpause : pauseFor defaultTimingParams e = defaultTimingParams.pause_after_sound := by
          unfold pauseFor
          rw [if_pos hs]
        have hS : isSoundType e = true := by simp [isSoundType, hs]
        have hD : isDialogueType e = false := by simp [isDialogueType, hs]
        simp only [List.map_cons, List.sum_cons, List.countP_cons, hS, hD, hd,
          Option.getD_some, if_pos, if_neg, Bool.false_eq_true, ite_true, ite_false]
        rw [hpause]
        push_cast
        ring
      · have hpause : pauseFor defaultTimingParams e = defaultTimingParams.pause_between_speakers := by
          unfold pauseFor
          rw [if_neg (by rw [hdl]; decide), if_pos hdl]
        have hS : isSoundType e = false := by simp [isSoundType, hdl]
        have hD : isDialogueType e = true := by simp [isDialogueType, hdl]
        simp only [List.map_cons, List.sum_cons, List.countP_cons, hS, hD, hd,
          Option.getD_some, Bool.false_eq_true, ite_true, ite_false]
        rw [hpause]
        push_cast
        ring
    · have : t ≤ t + d + pauseFor defaultTimingParams e := by
        have := pauseFor_nonneg e
        linarith
      linarith
    · intro te hte
      rcases List.mem_cons.mp hte with rfl | hmem
      · exact hd0
      · exact hdur te hmem

/-- Scheduling a list of scenes of Sound/Dialogue elements succeeds; the
final clock adds every element duration, the per-type pauses, and
`pause_after_scene` per scene; every timeline entry sits inside `[t, T]`
with non-negative element durations, and consecutive entries do not
overlap. -/
theorem schedScenes_spec (chars : List (List Char × CharInfo)) :
    ∀ (scenes : List PScene) (t : ℚ),
    (∀ sc ∈ scenes, ∀ e ∈ sc.elements, goodElem e) →
    ∃ tl T, schedScenes defaultTimingParams chars scenes t = some (tl, T) ∧
      T = t + elementDurationSum defaultTimingParams chars scenes
        + defaultTimingParams.pause_after_sound * (countSounds scenes : ℚ)
        + defaultTimingParams.pause_between_speakers * (countDialogues scenes : ℚ)
        + defaultTimingParams.pause_after_scene * (scenes.length : ℚ) ∧
      t ≤ T ∧
      (∀ en ∈ tl, (∀ te ∈ en.elements, 0 ≤ te.duration) ∧
        en.start_time ≤ en.end_time ∧ t ≤ en.start_time ∧ en.end_time ≤ T) ∧
      List.Chain' (fun a b => a.start_time ≤ b.start_time ∧ a.end_time ≤ b.start_time) tl := by
  intro scenes
  induction scenes with
  | nil =>
    intro t _
    exact ⟨[], t, rfl,
      by simp [elementDurationSum, countSounds, countDialogues], le_refl t,
      by simp, List.chain'_nil⟩
  | cons sc scenes ih =>
    intro t h
    obtain ⟨tes, endT, helems, hendT, hle1, hdur⟩ :=
      schedElements_spec chars sc.elements t (h sc (List.mem_cons_self sc scenes))
    have hpas : (0:ℚ) ≤ defaultTimingParams.pause_after_scene := by
      norm_num [defaultTimingParams]
    obtain ⟨tl, T, hrec, hT, hle2, hents, hchain⟩ :=
      ih (endT + defaultTimingParams.pause_after_scene)
        (fun x hx => h x (List.mem_cons_of_mem sc hx))
    refine ⟨⟨sc.name, t, endT, endT - t, tes⟩ :: tl, T, ?_, ?_, ?_, ?_, ?_⟩
    · simp only [schedScenes, helems, hrec]
    · rw [hT, hendT]
      simp only [elementDurationSum, countSounds, countDialogues, List.map_cons,
        List.sum_cons, List.length_cons]
      simp only [elementDurationSum, countSounds, countDialogues] at *
      push_cast
      ring
    · have : t ≤ endT + defaultTimingParams.pause_after_scene := by linarith
      linarith
    · intro en hen
      rcases List.mem_cons.mp hen with rfl | hmem
      · refine ⟨hdur, by simpa using hle1, le_refl t, ?_⟩
        simp only []
        linarith
      · obtain ⟨h1, h2, h3, h4⟩ := hents en hmem
        exact ⟨h1, h2, by linarith, h4⟩
    · refine List.chain'_cons'.mpr ⟨?_, hchain⟩
      intro b hb
      have hbmem : b ∈ tl := List.mem_of_mem_head? hb
      obtain ⟨_, _, h3, _⟩ := hents b hbmem
      constructor
      · simp only []
        linarith
      · simp only []
        linarith

/-- The element-duration total is non-negative under the defaults. -/
theorem elementDurationSum_nonneg (chars : List (List Char × CharInfo))
    (scenes : List PScene) :
    0 ≤ elementDurationSum defaultTimingParams chars scenes := by
  unfold elementDurationSum
  apply List.sum_nonneg
  intro x hx
  obtain ⟨sc, _, rfl⟩ := List.mem_map.mp hx
  apply List.sum_nonneg
  intro y hy
  obtain ⟨e, _, rfl⟩ := List.mem_map.mp hy
  exact calc_default_getD_nonneg chars e

/-- C2: for every script whose scene elements are all Sound or Dialogue,
`build_script_structure` (default parameters) succeeds and its
`estimated_duration` equals the sum of every element's computed duration
plus `pause_after_sound` per sound element, `pause_between_speakers` per
dialogue element, and `pause_after_scene` per scene (trailing pause
included); with at least one scene it is strictly positive. -/
theorem build_script_structure_duration_total
    (chars : List (List Char × CharInfo)) (scenes : List PScene)
    (treatments : List Treatment)
    (h : ∀ sc ∈ scenes, ∀ e ∈ sc.elements, goodElem e) :
    ∃ s, buildScriptStructure defaultTimingParams chars scenes treatments = some s ∧
      s.estimated_duration = elementDurationSum defaultTimingParams chars scenes
        + defaultTimingParams.pause_after_sound * (countSounds scenes : ℚ)
        + defaultTimingParams.pause_between_speakers * (countDialogues scenes : ℚ)
        + defaultTimingParams.pause_after_scene * (scenes.length : ℚ) ∧
      (scenes ≠ [] → 0 < s.estimated_duration) := by
  obtain ⟨tl, T, hsched, hT, _, _, _⟩ := schedScenes_spec chars scenes 0 h
  refine ⟨{ timeline := tl, special_treatments := treatments.map (processTreatment tl T),
            estimated_duration := T, formatted_duration := formatDuration T,
            word_count := countTotalWords tl }, ?_, ?_, ?_⟩
  · simp only [buildScriptStructure, hsched]
  · simpa using hT
  · intro hne
    have hS := elementDurationSum_nonneg chars scenes
    have hcS : (0:ℚ) ≤ (countSounds scenes : ℚ) := Nat.cast_nonneg _
    have hcD : (0:ℚ) ≤ (countDialogues scenes : ℚ) := Nat.cast_nonneg _
    have hlen : (1:ℚ) ≤ (scenes.length : ℚ) := by
      have : 1 ≤ scenes.length := Nat.one_le_iff_ne_zero.mpr (by simpa using hne)
      exact_mod_cast this
    have e1 : defaultTimingParams.pause_after_sound = 1/2 := rfl
    have e2 : defaultTimingParams.pause_between_speakers = 3/10 := rfl
    have e3 : defaultTimingParams.pause_after_scene = 3/2 := rfl
    simp only []
    rw [hT, e1, e2, e3]
    nlinarith

/-- Witness for C2 on a concrete two-scene script. -/
theorem build_script_structure_duration_total_witness :
    ∃ s, buildScriptStructure defaultTimingParams [] demoScenes [] = some s ∧
      s.estimated_duration = elementDurationSum defaultTimingParams [] demoScenes
        + defaultTimingParams.pause_after_sound * (countSounds demoScenes : ℚ)
        + defaultTimingParams.pause_between_speakers * (countDialogues demoScenes : ℚ)
        + defaultTimingParams.pause_after_scene * (demoScenes.length : ℚ) ∧
      (demoScenes ≠ [] → 0 < s.estimated_duration) :=
  build_script_structure_duration_total [] demoScenes [] (by decide)

/-- C3: for every script whose scene elements are all Sound or Dialogue,
the timeline built by `build_script_structure` (default parameters) gives
every scheduled element a non-negative duration, every scene entry a
`start_time ≤ end_time`, and successive scene entries non-decreasing,
non-overlapping spans. -/
theorem build_script_structure_timeline_invariants
    (chars : List (List Char × CharInfo)) (scenes : List PScene)
    (treatments : List Treatment)
    (h : ∀ sc ∈ scenes, ∀ e ∈ sc.elements, goodElem e) :
    ∃ s, buildScriptStructure defaultTimingParams chars scenes treatments = some s ∧
      (∀ en ∈ s.timeline, ∀ te ∈ en.elements, 0 ≤ te.duration) ∧
      (∀ en ∈ s.timeline, en.start_time ≤ en.end_time) ∧
      List.Chain' (fun a b => a.start_time ≤ b.start_time ∧ a.end_time ≤ b.start_time)
        s.timeline := by
  obtain ⟨tl, T, hsched, _, _, hents, hchain⟩ := schedScenes_spec chars scenes 0 h
  refine ⟨{ timeline := tl, special_treatments := treatments.map (processTreatment tl T),
            estimated_duration := T, formatted_duration := formatDuration T,
            word_count := countTotalWords tl }, ?_, ?_, ?_, ?_⟩
  · simp only [buildScriptStructure, hsched]
  · intro en hen
    exact (hents en hen).1
  · intro en hen
    exact (hents en hen).2.1
  · exact hchain

/-- Witness for C3 on a concrete two-scene script. -/
theorem build_script_structure_timeline_invariants_witness :
    ∃ s, buildScriptStructure defaultTimingParams [] demoScenes [] = some s ∧
      (∀ en ∈ s.timeline, ∀ te ∈ en.elements, 0 ≤ te.duration) ∧
      (∀ en ∈ s.timeline, en.start_time ≤ en.end_time) ∧
      List.Chain' (fun a b => a.start_time ≤ b.start_time ∧ a.end_time ≤ b.start_time)
        s.timeline :=
  build_script_structure_timeline_invariants [] demoScenes [] (by decide)

/-- A failing element makes the element schedule fail at every clock. -/
theorem schedElements_eq_none (params : TimingParams)
    (chars : List (List Char × CharInfo)) {e : PElem} :
    ∀ {es : List PElem}, e ∈ es → calcElementDuration params chars e = none →
    ∀ t, schedElements params chars es t = none := by
  intro es
  induction es with
  | nil => intro he; cases he
  | cons a as ih =>
    intro he hc t
    rcases List.mem_cons.mp he with rfl | hmem
    · simp only [schedElements, hc]
    · cases hca : calcElementDuration params chars a with
      | none => simp only [schedElements, hca]
      | some d =>
        simp only [schedElements, hca, ih hmem hc (t + d + pauseFor params a)]

/-- A failing scene makes the scene schedule fail at every clock. -/
theorem schedScenes_eq_none (params : TimingParams)
    (chars : List (List Char × CharInfo)) {sc : PScene} :
    ∀ {scenes : List PScene}, sc ∈ scenes →
    (∀ t, schedElements params chars sc.elements t = none) →
    ∀ t, schedScenes params chars scenes t = none := by
  intro scenes
  induction scenes with
  | nil => intro hs; cases hs
  | cons a as ih =>
    intro hs he t
    rcases List.mem_cons.mp hs with rfl | hmem
    · simp only [schedScenes, he t]
    · cases hea : schedElements params chars a.elements t with
      | none => simp only [schedScenes, hea]
      | some r =>
        obtain ⟨tes, endT⟩ := r
        simp only [schedScenes, hea,
          ih hmem he (endT + params.pause_after_scene)]

/-- C9: `_calculate_element_duration` produces a duration only for `'sound'`
or `'dialogue'` elements — any other element type yields `None` — and
scheduling any scene list containing such an element fails instead of
assigning it a duration. -/
theorem calc_duration_only_sound_or_dialogue
    (chars : List (List Char × CharInfo)) (e : PElem)
    (h1 : e.type ≠ "sound".toList) (h2 : e.type ≠ "dialogue".toList) :
    calcElementDuration defaultTimingParams chars e = none ∧
    ∀ (scenes : List PScene) (treatments : List Treatment) (sc : PScene),
      sc ∈ scenes → e ∈ sc.elements →
      buildScriptStructure defaultTimingParams chars scenes treatments = none := by
  have hc : calcElementDuration defaultTimingParams chars e = none := by
    unfold calcElementDuration
    rw [if_neg h1, if_neg h2]
  refine ⟨hc, fun scenes treatments sc hsc he => ?_⟩
  have hse := schedElements_eq_none defaultTimingParams chars he hc
  have hss := schedScenes_eq_none defaultTimingParams chars hsc hse 0
  simp only [buildScriptStructure, hss]

/-- Witness for C9 on a concrete scene containing a Transition element. -/
theorem calc_duration_only_sound_or_dialogue_witness :
    calcElementDuration defaultTimingParams []
      { type := "transition".toList, description := some ("fade out".toList) } = none ∧
    buildScriptStructure defaultTimingParams [] demoTransitionScenes [] = none := by
  have h := calc_duration_only_sound_or_dialogue []
    { type := "transition".toList, description := some ("fade out".toList) }
    (by decide) (by decide)
  exact ⟨h.1, h.2 demoTransitionScenes []
    ⟨"SCENE_ONE".toList,
     [{ type := "dialogue".toList, character := some ("John".toList),
        text := some ("Hello.".toList) },
      { type := "transition".toList, description := some ("fade out".toList) }]⟩
    (by decide) (by decide)⟩

/-- Every catalog speed entry is non-negative, and every present speed
entry is at least 0.8 (the smallest, `"ancient"`). -/
theorem voiceTraitMappings_speed_bounds :
    ∀ p ∈ voiceTraitMappings, 0 ≤ p.2.speed.getD 0 ∧ 4/5 ≤ p.2.speed.getD 1 := by
  simp only [voiceTraitMappings, List.forall_mem_cons, List.forall_mem_nil]
  norm_num

/-- `alookup` only returns stored values. -/
theorem alookup_mem {α : Type} :
    ∀ {l : List (List Char × α)} {k : List Char} {v : α},
    alookup k l = some v → (k, v) ∈ l := by
  intro l
  induction l with
  | nil => intro k v h; exact absurd h (by simp [alookup])
  | cons p rest ih =>
    intro k v h
    unfold alookup at h
    split_ifs at h with hk
    · injection h with h'
      rw [← h', hk]
      exact List.mem_cons_self _ _
    · exact List.mem_cons_of_mem _ (ih h)

/-- The speed component after applying one trait. -/
theorem applyTrait_speed (p : VoiceParams) (t : List Char) :
    (applyTrait p t).speed = p.speed +
      (match alookup (lowerStr t) voiceTraitMappings with
       | some patch => patch.speed.getD 0
       | none => 0) := by
  unfold applyTrait
  cases h : alookup (lowerStr t) voiceTraitMappings with
  | none => simp
  | some patch => simp [applyTraitPatch]

/-- Applying a trait never decreases the accumulated speed. -/
theorem applyTrait_speed_mono (p : VoiceParams) (t : List Char) :
    p.speed ≤ (applyTrait p t).speed := by
  rw [applyTrait_speed]
  cases h : alookup (lowerStr t) voiceTraitMappings with
  | none => simp
  | some patch =>
    have := (voiceTraitMappings_speed_bounds _ (alookup_mem h)).1
    simp only []
    linarith

/-- Folding the trait list never decreases the accumulated speed. -/
theorem foldl_applyTrait_speed_mono :
    ∀ (ts : List (List Char)) (p : VoiceParams),
    p.speed ≤ (ts.foldl applyTrait p).speed := by
  intro ts
  induction ts with
  | nil => intro p; exact le_refl _
  | cons a as ih =>
    intro p
    calc p.speed ≤ (applyTrait p a).speed := applyTrait_speed_mono p a
      _ ≤ ((a :: as).foldl applyTrait p).speed := ih (applyTrait p a)

/-- A recognized trait with a speed entry pushes the accumulated speed up
by at least 0.8. -/
theorem foldl_applyTrait_speed_big :
    ∀ (ts : List (List Char)) (p : VoiceParams) (tr : List Char),
    tr ∈ ts →
    (∃ patch, alookup (lowerStr tr) voiceTraitMappings = some patch ∧
      patch.speed.isSome = true) →
    p.speed + 4/5 ≤ (ts.foldl applyTrait p).speed := by
  intro ts
  induction ts with
  | nil => intro p tr h; cases h
  | cons a as ih =>
    intro p tr hmem hsp
    rcases List.mem_cons.mp hmem with rfl | hmem'
    · obtain ⟨patch, hlk, hs⟩ := hsp
      obtain ⟨v, hv⟩ := Option.isSome_iff_exists.mp hs
      have hb := (voiceTraitMappings_speed_bounds _ (alookup_mem hlk)).2
      have h1 : (applyTrait p tr).speed = p.speed + v := by
        rw [applyTrait_speed, hlk]
        simp [hv]
      have h2 : 4/5 ≤ v := by
        rw [hv] at hb
        simpa using hb
      have h3 := foldl_applyTrait_speed_mono as (applyTrait p tr)
      simp only [List.foldl_cons]
      linarith
    · have h1 := applyTrait_speed_mono p a
      have h2 := ih (applyTrait p a) tr hmem' hsp
      simp only [List.foldl_cons]
      linarith

/-- Gender inference leaves the speed untouched. -/
theorem inferGender_speed (p : VoiceParams) : (inferGender p).speed = p.speed := by
  unfold inferGender
  split_ifs <;> rfl

/-- Speaker-archetype inference leaves the speed untouched. -/
theorem inferSpeakerId_speed (p : VoiceParams) :
    (inferSpeakerId p).speed = p.speed := by
  unfold inferSpeakerId
  split_ifs <;> rfl

/-- C10 (counterexample to the claim as stated): the trait `"ancient"` is a
recognized trait whose catalog patch has a speed entry of 0.8 < 0.85, and
its pre-clamp accumulated speed is 1.8 < 1.85 — the claim's parenthetical
"all ≥ 0.85 … at least 1.85 before clamping" fails — although the final
clamped speed is still exactly 1.3. -/
theorem ancient_speed_below_claimed_bound :
    (∃ patch, alookup (lowerStr ("ancient".toList)) voiceTraitMappings = some patch ∧
      patch.speed = some (4/5) ∧ ¬((17/20 : ℚ) ≤ 4/5)) ∧
    (preClampVoiceParams [("ancient".toList)]).speed = 9/5 ∧
    ¬((37/20 : ℚ) ≤ 9/5) ∧
    (voiceTraitsToParameters [("ancient".toList)]).speed = 13/10 := by
  have hlk : alookup (lowerStr ("ancient".toList)) voiceTraitMappings =
      some { pitch := some (-4), formant_shift := some (-(1/5)), speed := some (4/5) } := rfl
  have hpre : (preClampVoiceParams [("ancient".toList)]).speed = 9/5 := by
    unfold preClampVoiceParams
    rw [inferSpeakerId_speed, inferGender_speed]
    have : ([("ancient".toList)]).foldl applyTrait initialVoiceParams =
        applyTrait initialVoiceParams ("ancient".toList) := rfl
    rw [this, applyTrait_speed, hlk]
    norm_num [initialVoiceParams]
  refine ⟨⟨_, hlk, rfl, by norm_num⟩, hpre, by norm_num, ?_⟩
  unfold voiceTraitsToParameters clampVoiceParams
  simp only []
  rw [hpre]
  norm_num [clampQ]

/-- C10 (amended): for every trait list containing at least one recognized
trait whose catalog patch includes a speed entry, the returned speed is
exactly 1.3 — each such speed value (all ≥ 0.8) is added to the default
1.0, giving at least 1.8 before the clamp to [0.7, 1.3]. -/
theorem speed_trait_clamps_speed_to_max (traits : List (List Char))
    (h : ∃ tr ∈ traits, ∃ patch,
      alookup (lowerStr tr) voiceTraitMappings = some patch ∧
      patch.speed.isSome = true) :
    (voiceTraitsToParameters traits).speed = 13/10 := by
  obtain ⟨tr, htr, hsp⟩ := h
  have hbig := foldl_applyTrait_speed_big traits initialVoiceParams tr htr hsp
  have hinit : initialVoiceParams.speed = 1 := rfl
  have hs : (9/5 : ℚ) ≤ (traits.foldl applyTrait initialVoiceParams).speed := by
    rw [hinit] at hbig
    linarith
  unfold voiceTraitsToParameters clampVoiceParams preClampVoiceParams
  simp only [inferSpeakerId_speed, inferGender_speed]
  unfold clampQ
  rw [min_eq_left (by linarith), max_eq_right (by norm_num)]

/-- Witness for the amended C10 at the trait list `["slow"]`. -/
theorem speed_trait_clamps_speed_to_max_witness :
    (voiceTraitsToParameters [("slow".toList)]).speed = 13/10 :=
  speed_trait_clamps_speed_to_max [("slow".toList)]
    ⟨("slow".toList), List.mem_singleton.mpr rfl,
     { speed := some (17/20) }, rfl, rfl⟩

/-! ### String lemmas for the scene-parser proofs -/

/-- Unfolding lemma for `subStr` on a cons. -/
theorem subStr_cons (n : List Char) (a : Char) (s : List Char) :
    subStr n (a :: s) = (hasPrefixStr n (a :: s) || subStr n s) :=
  rfl

/-- A string is a prefix of itself followed by anything. -/
theorem hasPrefixStr_append_self (s r : List Char) :
    hasPrefixStr s (s ++ r) = true := by
  induction s with
  | nil => rfl
  | cons a s ih => simp [hasPrefixStr, ih]

/-- A prefix occurrence is an occurrence. -/
theorem subStr_of_hasPrefixStr {n s : List Char}
    (h : hasPrefixStr n s = true) : subStr n s = true := by
  cases s with
  | nil => exact h
  | cons a s => simp [subStr_cons, h]

/-- `n` occurs in `pre ++ n ++ post`. -/
theorem subStr_append_middle (n pre post : List Char) :
    subStr n (pre ++ n ++ post) = true := by
  induction pre with
  | nil =>
    simp only [List.nil_append]
    exact subStr_of_hasPrefixStr (by rw [hasPrefixStr_append_self])
  | cons a pre ih =>
    simp only [List.append_assoc] at ih ⊢
    simp [subStr_cons, ih]

/-- Non-occurrence in a cons gives non-occurrence in the tail. -/
theorem subStr_tail {n : List Char} {a : Char} {s : List Char}
    (h : subStr n (a :: s) = false) : subStr n s = false := by
  rw [subStr_cons, Bool.or_eq_false_iff] at h
  exact h.2

/-- A pattern starting with `*` cannot start inside a `*`-free segment. -/
theorem subStr_star_skip (n : List Char) {seg : List Char} (r : List Char)
    (h : '*' ∉ seg) : subStr ('*' :: n) (seg ++ r) = subStr ('*' :: n) r := by
  induction seg with
  | nil => rfl
  | cons a seg ih =>
    have ha : ('*' : Char) ≠ a := fun he => h (he ▸ List.mem_cons_self a seg)
    have h' : '*' ∉ seg := fun hm => h (List.mem_cons_of_mem a hm)
    simp [subStr_cons, hasPrefixStr, ha, ih h']

/-- Single-character skip for a pattern starting with `*`. -/
theorem subStr_star_cons (n : List Char) (a : Char) (s : List Char)
    (ha : a ≠ '*') : subStr ('*' :: n) (a :: s) = subStr ('*' :: n) s := by
  have h : ('*' : Char) ≠ a := Ne.symm ha
  simp [subStr_cons, hasPrefixStr, h]

/-- If the stripped string is unchanged, leading whitespace is absent. -/
theorem dropWhile_eq_self_of_strip {t : List Char} (h : stripStr t = t) :
    t.dropWhile wsChar = t := by
  have hsuf : t.dropWhile wsChar <:+ t := List.dropWhile_suffix wsChar
  apply List.IsSuffix.eq_of_length hsuf
  have h1 : (stripStr t).length ≤ (t.dropWhile wsChar).length := by
    unfold stripStr
    calc ((((t.dropWhile wsChar).reverse.dropWhile wsChar)).reverse).length
        = (((t.dropWhile wsChar).reverse.dropWhile wsChar)).length := List.length_reverse _
      _ ≤ ((t.dropWhile wsChar).reverse).length :=
          (List.dropWhile_suffix wsChar).length_le
      _ = (t.dropWhile wsChar).length := List.length_reverse _
  have h2 : (t.dropWhile wsChar).length ≤ t.length :=
    (List.dropWhile_suffix wsChar).length_le
  rw [h] at h1
  omega

/-- If the stripped string is unchanged, trailing whitespace is absent. -/
theorem reverse_dropWhile_eq_self_of_strip {t : List Char}
    (h : stripStr t = t) : t.reverse.dropWhile wsChar = t.reverse := by
  have h1 : stripStr t = (t.reverse.dropWhile wsChar).reverse := by
    unfold stripStr
    rw [dropWhile_eq_self_of_strip h]
  rw [h] at h1
  calc t.reverse.dropWhile wsChar
      = ((t.reverse.dropWhile wsChar).reverse).reverse := (List.reverse_reverse _).symm
    _ = t.reverse := by rw [← h1]

/-- Stripping a leading whitespace character of an already-stripped string. -/
theorem stripStr_cons_ws {a : Char} (ha : wsChar a = true) {t : List Char}
    (h : stripStr t = t) : stripStr (a :: t) = t := by
  unfold stripStr
  rw [List.dropWhile_cons_of_pos ha, dropWhile_eq_self_of_strip h,
    reverse_dropWhile_eq_self_of_strip h, List.reverse_reverse]

/-- A string with non-whitespace first and last characters strips to
itself. -/
theorem stripStr_eq_self {l : List Char}
    (h1 : ∀ a, l.head? = some a → wsChar a = false)
    (h2 : ∀ a, l.getLast? = some a → wsChar a = false) :
    stripStr l = l := by
  cases l with
  | nil => rfl
  | cons b l' =>
    unfold stripStr
    rw [List.dropWhile_cons_of_neg (by simp [h1 b rfl])]
    rcases hr : (b :: l').reverse with _ | ⟨x, xs⟩
    · exact absurd (congrArg List.length hr) (by simp)
    · have hx : (b :: l').getLast? = some x := by
        rw [← List.head?_reverse, hr]
        rfl
      rw [List.dropWhile_cons_of_neg (by simp [h2 x hx]), ← hr,
        List.reverse_reverse]

/-- Splitting on an absent separator returns the whole string. -/
theorem splitOnChar_eq_single {sep : Char} {s : List Char} (h : sep ∉ s) :
    splitOnChar sep s = [s] := by
  induction s with
  | nil => rfl
  | cons a s ih =>
    have ha : a ≠ sep := fun he => h (he ▸ List.mem_cons_self a s)
    have h' : sep ∉ s := fun hm => h (List.mem_cons_of_mem a hm)
    simp [splitOnChar, ha, ih h']

/-! ### Scanner lemmas for the scene-parser proofs -/

/-- Without `[` there is no sound-cue match. -/
theorem soundSearch_none {s : List Char} (h : '[' ∉ s) :
    soundSearch s = none := by
  induction s with
  | nil => rfl
  | cons a s ih =>
    have ha : ('[' : Char) ≠ a := fun he => h (he ▸ List.mem_cons_self a s)
    have h' : '[' ∉ s := fun hm => h (List.mem_cons_of_mem a hm)
    have hpre : hasPrefixStr ("[sound:".toList) (a :: s) = false := by
      simp [hasPrefixStr, ha]
    simp only [soundSearch, hpre, Bool.false_eq_true, if_false]
    exact ih h'

/-- Without `*` there is no internal-thought match. -/
theorem thoughtSearch_none {s : List Char} (h : '*' ∉ s) :
    thoughtSearch s = none := by
  induction s with
  | nil => rfl
  | cons a s ih =>
    have ha : a ≠ '*' := fun he => h (he ▸ List.mem_cons_self a s)
    have h' : '*' ∉ s := fun hm => h (List.mem_cons_of_mem a hm)
    simp only [thoughtSearch, ha, Bool.false_eq_true, if_false]
    exact ih h'

/-- Unfolding equation for `pat1Split` on a cons. -/
theorem pat1Split_cons (c : Char) (rest : List Char) :
    pat1Split (c :: rest) =
      if hasPrefixStr ("**:".toList) rest && rest.drop 3 ≠ [] then
        some ([c], rest.drop 3)
      else
        match pat1Split rest with
        | some (g, r) => some (c :: g, r)
        | none => none :=
  rfl

/-- A successful lazy group-1 match contains a literal `**:`. -/
theorem pat1Split_hasSub :
    ∀ {u g r : List Char}, pat1Split u = some (g, r) →
    subStr ("**:".toList) u = true := by
  intro u
  induction u with
  | nil => intro g r h; exact absurd h (by simp [pat1Split])
  | cons a u ih =>
    intro g r h
    rw [pat1Split_cons] at h
    split_ifs at h with hcond
    · rw [Bool.and_eq_true] at hcond
      rw [subStr_cons, subStr_of_hasPrefixStr hcond.1]
      simp
    · rcases hrec : pat1Split u with _ | p
      · rw [hrec] at h
        exact absurd h (by simp)
      · obtain ⟨g', r'⟩ := p
        rw [subStr_cons, ih hrec]
        simp

/-- Without a literal `**:` the first dialogue pattern cannot match. -/
theorem pat1Search_none :
    ∀ {s : List Char}, subStr ("**:".toList) s = false → pat1Search s = none := by
  intro s
  induction s with
  | nil => intro h; rfl
  | cons a s ih =>
    intro h
    have hs : subStr ("**:".toList) s = false := subStr_tail h
    unfold pat1Search
    split_ifs with hpre
    · rcases hsp : pat1Split ((a :: s).drop 2) with _ | p
      · exact ih hs
      · obtain ⟨g, r⟩ := p
        exfalso
        have hsub := pat1Split_hasSub hsp
        cases s with
        | nil => simp [pat1Split] at hsp
        | cons b s' =>
          have hd : subStr ("**:".toList) s' = false := subStr_tail hs
          simp only [List.drop_succ_cons, List.drop_zero] at hsub
          rw [hd] at hsub
          cases hsub
    · exact ih hs

/-- The lazy group of the first dialogue pattern on `c ++ "**:" ++ r` with a
`*`-free non-empty `c` and non-empty remainder returns exactly `(c, r)`. -/
theorem pat1Split_concat :
    ∀ {c : List Char} (r : List Char), c ≠ [] → '*' ∉ c → r ≠ [] →
    pat1Split (c ++ ('*' :: '*' :: ':' :: r)) = some (c, r) := by
  intro c
  induction c with
  | nil => intro r hc _ _; exact absurd rfl hc
  | cons a c ih =>
    intro r _ hstar hr
    cases c with
    | nil =>
      simp only [List.cons_append, List.nil_append]
      rw [pat1Split_cons, if_pos]
      · simp
      · simp [hasPrefixStr, hr]
    | cons b c' =>
      have hb : b ≠ '*' := fun he =>
        hstar (he ▸ List.mem_cons_of_mem a (List.mem_cons_self b c'))
      have hstar' : '*' ∉ b :: c' := fun hm => hstar (List.mem_cons_of_mem a hm)
      simp only [List.cons_append]
      rw [pat1Split_cons, if_neg]
      · have ih' := ih r (by simp) hstar' hr
        simp only [List.cons_append] at ih'
        rw [ih']
      · intro hcond
        rw [Bool.and_eq_true] at hcond
        have := hcond.1
        simp [hasPrefixStr, Ne.symm hb] at this

/-- Unfolding equation for `pat2Lazy` on a cons. -/
theorem pat2Lazy_cons (c : Char) (rest : List Char) :
    pat2Lazy (c :: rest) =
      if hasPrefixStr ("):".toList) rest && rest.drop 2 ≠ [] then
        some ([c], rest.drop 2)
      else
        match pat2Lazy rest with
        | some (g, r) => some (c :: g, r)
        | none => none :=
  rfl

/-- The lazy emotion group on `e ++ "):" ++ r` with a `)`-free non-empty `e`
and non-empty remainder returns exactly `(e, r)`. -/
theorem pat2Lazy_concat :
    ∀ {e : List Char} (r : List Char), e ≠ [] → ')' ∉ e → r ≠ [] →
    pat2Lazy (e ++ (')' :: ':' :: r)) = some (e, r) := by
  intro e
  induction e with
  | nil => intro r he _ _; exact absurd rfl he
  | cons a e ih =>
    intro r _ hpar hr
    cases e with
    | nil =>
      simp only [List.cons_append, List.nil_append]
      rw [pat2Lazy_cons, if_pos]
      · simp
      · simp [hasPrefixStr, hr]
    | cons b e' =>
      have hb : b ≠ ')' := fun h =>
        hpar (h ▸ List.mem_cons_of_mem a (List.mem_cons_self b e'))
      have hpar' : ')' ∉ b :: e' := fun hm => hpar (List.mem_cons_of_mem a hm)
      simp only [List.cons_append]
      rw [pat2Lazy_cons, if_neg]
      · have ih' := ih r (by simp) hpar' hr
        simp only [List.cons_append] at ih'
        rw [ih']
      · intro hcond
        rw [Bool.and_eq_true] at hcond
        have := hcond.1
        simp [hasPrefixStr, Ne.symm hb] at this

/-- Unfolding equation for `emoLazy` on a cons. -/
theorem emoLazy_cons (c : Char) (rest : List Char) :
    emoLazy (c :: rest) =
      if rest.head? = some ')' && rest.drop 1 ≠ [] then
        some ([c], rest.drop 1)
      else
        match emoLazy rest with
        | some (g, r) => some (c :: g, r)
        | none => none :=
  rfl

/-- The lazy group of the leading-emotion pattern on `e ++ ")" ++ r`. -/
theorem emoLazy_concat :
    ∀ {e : List Char} (r : List Char), e ≠ [] → ')' ∉ e → r ≠ [] →
    emoLazy (e ++ (')' :: r)) = some (e, r) := by
  intro e
  induction e with
  | nil => intro r he _ _; exact absurd rfl he
  | cons a e ih =>
    intro r _ hpar hr
    cases e with
    | nil =>
      simp only [List.cons_append, List.nil_append]
      rw [emoLazy_cons, if_pos]
      · simp
      · simp [hr]
    | cons b e' =>
      have hb : b ≠ ')' := fun h =>
        hpar (h ▸ List.mem_cons_of_mem a (List.mem_cons_self b e'))
      have hpar' : ')' ∉ b :: e' := fun hm => hpar (List.mem_cons_of_mem a hm)
      simp only [List.cons_append]
      rw [emoLazy_cons, if_neg]
      · have ih' := ih r (by simp) hpar' hr
        simp only [List.cons_append] at ih'
        rw [ih']
      · intro hcond
        rw [Bool.and_eq_true] at hcond
        have := hcond.1
        simp at this
        exact hb this

/-- A text not starting with `(` has no emotion match. -/
theorem emotionMatch_none {t : List Char} (h : t.head? ≠ some '(') :
    emotionMatch t = none := by
  unfold emotionMatch
  split
  · rename_i u
    simp at h
  · rfl

/-- The continuation after group 1 of the inline-emotion pattern fails
anywhere that does not start with `**`. -/
theorem pat2AfterG1_none {u : List Char}
    (h : hasPrefixStr ("**".toList) u = false) : pat2AfterG1 u = none := by
  unfold pat2AfterG1
  rw [h]
  simp

/-- The continuation after group 1 of the inline-emotion pattern on
`** (e):r`. -/
theorem pat2AfterG1_concat {e : List Char} (r : List Char) (he : e ≠ [])
    (hpar : ')' ∉ e) (hr : r ≠ []) :
    pat2AfterG1 ('*' :: '*' :: ' ' :: '(' :: (e ++ (')' :: ':' :: r))) =
      some (e, r) := by
  unfold pat2AfterG1
  rw [if_pos (by simp [hasPrefixStr])]
  have hdrop : (('*' :: '*' :: ' ' :: '(' :: (e ++ (')' :: ':' :: r))).drop 2).dropWhile wsChar
      = '(' :: (e ++ (')' :: ':' :: r)) := by
    simp [List.dropWhile, wsChar]
  rw [hdrop]
  exact pat2Lazy_concat r he hpar hr

/-- Unfolding equation for `pat2Split` on a cons. -/
theorem pat2Split_cons (c : Char) (rest : List Char) :
    pat2Split (c :: rest) =
      (match pat2AfterG1 rest with
       | some (g2, r) => some ([c], g2, r)
       | none =>
         match pat2Split rest with
         | some (g1, g2, r) => some (c :: g1, g2, r)
         | none => none) :=
  rfl

/-- The lazy group 1 of the inline-emotion pattern on `c** (e):r` with a
`*`-free non-empty `c`. -/
theorem pat2Split_concat :
    ∀ {c : List Char} (e r : List Char), c ≠ [] → '*' ∉ c → e ≠ [] →
    ')' ∉ e → r ≠ [] →
    pat2Split (c ++ ('*' :: '*' :: ' ' :: '(' :: (e ++ (')' :: ':' :: r)))) =
      some (c, e, r) := by
  intro c
  induction c with
  | nil => intro e r hc _ _ _ _; exact absurd rfl hc
  | cons a c ih =>
    intro e r _ hstar he hpar hr
    cases c with
    | nil =>
      simp only [List.cons_append, List.nil_append]
      rw [pat2Split_cons, pat2AfterG1_concat r he hpar hr]
    | cons b c' =>
      have hb : b ≠ '*' := fun h =>
        hstar (h ▸ List.mem_cons_of_mem a (List.mem_cons_self b c'))
      have hstar' : '*' ∉ b :: c' := fun hm => hstar (List.mem_cons_of_mem a hm)
      simp only [List.cons_append]
      have ih' := ih e r (by simp) hstar' he hpar hr
      simp only [List.cons_append] at ih'
      rw [pat2Split_cons, pat2AfterG1_none (by simp [hasPrefixStr, Ne.symm hb]),
        ih']

/-! ### Dialogue-line lemmas (MarkdownParser.parse_scene) -/

/-- Unfolding equation for `pat1Search` on a cons. -/
theorem pat1Search_cons (a : Char) (s : List Char) :
    pat1Search (a :: s) =
      (if hasPrefixStr ("**".toList) (a :: s) then
        match pat1Split ((a :: s).drop 2) with
        | some r => some r
        | none => pat1Search s
      else pat1Search s) :=
  rfl

/-- Unfolding equation for `pat2Search` on a cons. -/
theorem pat2Search_cons (a : Char) (s : List Char) :
    pat2Search (a :: s) =
      (if hasPrefixStr ("**".toList) (a :: s) then
        match pat2Split ((a :: s).drop 2) with
        | some r => some r
        | none => pat2Search s
      else pat2Search s) :=
  rfl

/-- A `*`-starting pattern does not occur in a `*`-free string. -/
theorem subStr_star_none (n : List Char) {s : List Char} (h : '*' ∉ s) :
    subStr ('*' :: n) s = false := by
  have hx := subStr_star_skip n ([] : List Char) h
  simpa [subStr, hasPrefixStr] using hx

/-- Building a dialogue element from a `*`-free text sets no internal-thought
flags. -/
theorem mkDialogue_plain (ch : List Char) {text : List Char}
    (em : Option (List Char)) (h : '*' ∉ text) :
    mkDialogue ch text em = MDElem.dialogue ch text em false false := by
  unfold mkDialogue
  rw [thoughtSearch_none h]

/-- A head left in place by `dropWhile wsChar` is not whitespace. -/
theorem not_ws_of_dropWhile_self {b : Char} {l : List Char}
    (h : List.dropWhile wsChar (b :: l) = b :: l) : wsChar b = false := by
  by_contra hws
  simp only [Bool.not_eq_false] at hws
  rw [List.dropWhile_cons_of_pos hws] at h
  have hlen := congrArg List.length h
  have hle : (List.dropWhile wsChar l).length ≤ l.length :=
    (List.dropWhile_suffix wsChar).length_le
  simp at hlen
  omega

/-- The last character of a string unchanged by `stripStr` is not
whitespace. -/
theorem last_not_ws_of_strip {t : List Char} (h : stripStr t = t) {a : Char}
    (ha : t.getLast? = some a) : wsChar a = false := by
  have hr := reverse_dropWhile_eq_self_of_strip h
  have ha' : t.reverse.head? = some a := by
    rw [List.head?_reverse]
    exact ha
  rcases hrev : t.reverse with _ | ⟨b, l⟩
  · rw [hrev] at ha'
    cases ha'
  · rw [hrev] at ha' hr
    have hb : b = a := Option.some.inj ha'
    subst hb
    exact not_ws_of_dropWhile_self hr

/-- A line with a non-whitespace head whose tail segment ends in an
unchanged-stripped non-empty string strips to itself. -/
theorem stripStr_line {b : Char} (hb : wsChar b = false) {z t : List Char}
    (ht : stripStr t = t) (htne : t ≠ []) :
    stripStr ((b :: z) ++ t) = (b :: z) ++ t := by
  apply stripStr_eq_self
  · intro a ha
    rw [List.cons_append, List.head?_cons] at ha
    have hba : b = a := Option.some.inj ha
    rw [← hba]
    exact hb
  · intro a ha
    rw [List.getLast?_append_of_ne_nil _ htne] at ha
    exact last_not_ws_of_strip ht ha

/-- On a newline-free line that strips to itself, `parse_scene` is the
classification of that single line. -/
theorem parseScene_single {line : List Char} (hnl : '\n' ∉ line)
    (hstrip : stripStr line = line) :
    parseScene line = classifyLine line := by
  unfold parseScene
  rw [splitOnChar_eq_single hnl]
  simp [hstrip]

/-- The first dialogue pattern on the line `**c**: t`. -/
theorem pat1Search_line1 {c : List Char} (t : List Char) (hcne : c ≠ [])
    (hcstar : '*' ∉ c) :
    pat1Search (dialogueLine1 c t) = some (c, ' ' :: t) := by
  unfold dialogueLine1
  rw [pat1Search_cons, if_pos (by simp [hasPrefixStr])]
  have hdrop : (('*' :: '*' :: (c ++ ('*' :: '*' :: ':' :: ' ' :: t))).drop 2)
      = c ++ ('*' :: '*' :: ':' :: (' ' :: t)) := rfl
  rw [hdrop, pat1Split_concat (' ' :: t) hcne hcstar (by simp)]

/-- The first dialogue pattern on the line `**c**: (e) t`. -/
theorem pat1Search_line3 {c : List Char} (e t : List Char) (hcne : c ≠ [])
    (hcstar : '*' ∉ c) :
    pat1Search (dialogueLine3 c e t) =
      some (c, ' ' :: '(' :: (e ++ (')' :: ' ' :: t))) := by
  unfold dialogueLine3
  rw [pat1Search_cons, if_pos (by simp [hasPrefixStr])]
  have hdrop : (('*' :: '*' :: (c ++ ('*' :: '*' :: ':' :: ' ' :: '(' ::
      (e ++ (')' :: ' ' :: t))))).drop 2)
      = c ++ ('*' :: '*' :: ':' :: (' ' :: '(' :: (e ++ (')' :: ' ' :: t)))) := rfl
  rw [hdrop,
    pat1Split_concat (' ' :: '(' :: (e ++ (')' :: ' ' :: t))) hcne hcstar (by simp)]

/-- The line `**c** (e): t` contains no literal `**:`, so the first dialogue
pattern cannot fire on it. -/
theorem line2_no_pat1 {c e t : List Char} (hcne : c ≠ []) (hcstar : '*' ∉ c)
    (hccol : c.head? ≠ some ':') (hestar : '*' ∉ e) (htstar : '*' ∉ t) :
    subStr ("**:".toList) (dialogueLine2 c e t) = false := by
  rcases c with _ | ⟨c0, c'⟩
  · exact absurd rfl hcne
  · have hc0 : c0 ≠ ':' := fun h => hccol (by simp [h])
    have hc0star : c0 ≠ '*' := fun h => hcstar (h ▸ List.mem_cons_self c0 c')
    have hc' : '*' ∉ c' := fun hm => hcstar (List.mem_cons_of_mem c0 hm)
    have hpat : ("**:".toList) = '*' :: '*' :: [':'] := rfl
    have key : subStr ('*' :: '*' :: [':']) t = false := subStr_star_none _ htstar
    have hskip2 : subStr ('*' :: '*' :: [':']) (e ++ (')' :: ':' :: ' ' :: t))
        = subStr ('*' :: '*' :: [':']) (')' :: ':' :: ' ' :: t) :=
      subStr_star_skip _ _ hestar
    have hRest : subStr ('*' :: '*' :: [':'])
        (c' ++ ('*' :: '*' :: ' ' :: '(' :: (e ++ (')' :: ':' :: ' ' :: t))))
        = false := by
      rw [subStr_star_skip _ _ hc']
      simp only [subStr_cons, hskip2, key]
      simp [hasPrefixStr]
    unfold dialogueLine2
    rw [hpat]
    simp only [List.cons_append]
    simp only [subStr_cons]
    rw [hRest]
    simp [hasPrefixStr, Ne.symm hc0, Ne.symm hc0star]

/-- Scene parsing of the line `**c**: t`. -/
theorem parseScene_line1 {c t : List Char} (hc : plainStr c) (ht : plainStr t)
    (htpar : t.head? ≠ some '(')
    (hn : subStr ("Narrator:".toList) (dialogueLine1 c t) = false) :
    parseScene (dialogueLine1 c t) = [MDElem.dialogue c t none false false] := by
  obtain ⟨hcs, hcne, hcmem⟩ := hc
  obtain ⟨hts, htne, htmem⟩ := ht
  have hcstar : '*' ∉ c := fun hm => ((hcmem _ hm).1) rfl
  have htstar : '*' ∉ t := fun hm => ((htmem _ hm).1) rfl
  have hbr : '[' ∉ dialogueLine1 c t := by
    have hcb : '[' ∉ c := fun hm => ((hcmem _ hm).2.1) rfl
    have htb : '[' ∉ t := fun hm => ((htmem _ hm).2.1) rfl
    simp [dialogueLine1, hcb, htb]
  have hnl : '\n' ∉ dialogueLine1 c t := by
    have hcn : '\n' ∉ c := fun hm => ((hcmem _ hm).2.2) rfl
    have htn : '\n' ∉ t := fun hm => ((htmem _ hm).2.2) rfl
    simp [dialogueLine1, hcn, htn]
  have hform : dialogueLine1 c t
      = ('*' :: ('*' :: c ++ ['*', '*', ':', ' '])) ++ t := by
    simp [dialogueLine1]
  have hstrip : stripStr (dialogueLine1 c t) = dialogueLine1 c t := by
    rw [hform]
    exact stripStr_line (by decide) hts htne
  have hne : ¬(dialogueLine1 c t = []) := by simp [dialogueLine1]
  have hsound : soundSearch (dialogueLine1 c t) = none := soundSearch_none hbr
  have hps : pat1Search (dialogueLine1 c t) = some (c, ' ' :: t) :=
    pat1Search_line1 t hcne hcstar
  have hts0 : stripStr (' ' :: t) = t := stripStr_cons_ws (by decide) hts
  have hem : emotionMatch t = none := emotionMatch_none htpar
  rw [parseScene_single hnl hstrip]
  unfold classifyLine
  rw [if_neg hne, hsound]
  simp only [hps, hts0, hem, hcs, hn, Bool.false_eq_true, if_false,
    List.append_nil]
  rw [mkDialogue_plain c none htstar]

/-- Scene parsing of the line `**c** (e): t`. -/
theorem parseScene_line2 {c e t : List Char} (hc : plainStr c) (he : plainStr e)
    (ht : plainStr t) (hccol : c.head? ≠ some ':') (hepar : ')' ∉ e)
    (hn : subStr ("Narrator:".toList) (dialogueLine2 c e t) = false) :
    parseScene (dialogueLine2 c e t) =
      [MDElem.dialogue c t (some e) false false] := by
  obtain ⟨hcs, hcne, hcmem⟩ := hc
  obtain ⟨hes, hene, hemem⟩ := he
  obtain ⟨hts, htne, htmem⟩ := ht
  have hcstar : '*' ∉ c := fun hm => ((hcmem _ hm).1) rfl
  have hestar : '*' ∉ e := fun hm => ((hemem _ hm).1) rfl
  have htstar : '*' ∉ t := fun hm => ((htmem _ hm).1) rfl
  have hbr : '[' ∉ dialogueLine2 c e t := by
    have hcb : '[' ∉ c := fun hm => ((hcmem _ hm).2.1) rfl
    have heb : '[' ∉ e := fun hm => ((hemem _ hm).2.1) rfl
    have htb : '[' ∉ t := fun hm => ((htmem _ hm).2.1) rfl
    simp [dialogueLine2, hcb, heb, htb]
  have hnl : '\n' ∉ dialogueLine2 c e t := by
    have hcn : '\n' ∉ c := fun hm => ((hcmem _ hm).2.2) rfl
    have hen : '\n' ∉ e := fun hm => ((hemem _ hm).2.2) rfl
    have htn : '\n' ∉ t := fun hm => ((htmem _ hm).2.2) rfl
    simp [dialogueLine2, hcn, hen, htn]
  have hform : dialogueLine2 c e t
      = ('*' :: ('*' :: c ++ ('*' :: '*' :: ' ' :: '(' :: e ++ [')', ':', ' ']))) ++ t := by
    simp [dialogueLine2]
  have hstrip : stripStr (dialogueLine2 c e t) = dialogueLine2 c e t := by
    rw [hform]
    exact stripStr_line (by decide) hts htne
  have hne : ¬(dialogueLine2 c e t = []) := by simp [dialogueLine2]
  have hsound : soundSearch (dialogueLine2 c e t) = none := soundSearch_none hbr
  have hp1 : pat1Search (dialogueLine2 c e t) = none :=
    pat1Search_none (line2_no_pat1 hcne hcstar hccol hestar htstar)
  have hp2 : pat2Search (dialogueLine2 c e t) = some (c, e, ' ' :: t) := by
    unfold dialogueLine2
    rw [pat2Search_cons, if_pos (by simp [hasPrefixStr])]
    have hdrop : (('*' :: '*' :: (c ++ ('*' :: '*' :: ' ' :: '(' ::
        (e ++ (')' :: ':' :: ' ' :: t))))).drop 2)
        = c ++ ('*' :: '*' :: ' ' :: '(' :: (e ++ (')' :: ':' :: (' ' :: t)))) := rfl
    rw [hdrop, pat2Split_concat e (' ' :: t) hcne hcstar hene hepar (by simp)]
  have hts0 : stripStr (' ' :: t) = t := stripStr_cons_ws (by decide) hts
  rw [parseScene_single hnl hstrip]
  unfold classifyLine
  rw [if_neg hne, hsound]
  simp only [hp1, hp2, hts0, hcs, hes, hn, Bool.false_eq_true, if_false,
    List.append_nil]
  rw [mkDialogue_plain c (some e) htstar]

/-- Scene parsing of the line `**c**: (e) t`. -/
theorem parseScene_line3 {c e t : List Char} (hc : plainStr c) (he : plainStr e)
    (ht : plainStr t) (hepar : ')' ∉ e)
    (hn : subStr ("Narrator:".toList) (dialogueLine3 c e t) = false) :
    parseScene (dialogueLine3 c e t) =
      [MDElem.dialogue c t (some e) false false] := by
  obtain ⟨hcs, hcne, hcmem⟩ := hc
  obtain ⟨hes, hene, hemem⟩ := he
  obtain ⟨hts, htne, htmem⟩ := ht
  have hcstar : '*' ∉ c := fun hm => ((hcmem _ hm).1) rfl
  have htstar : '*' ∉ t := fun hm => ((htmem _ hm).1) rfl
  have hbr : '[' ∉ dialogueLine3 c e t := by
    have hcb : '[' ∉ c := fun hm => ((hcmem _ hm).2.1) rfl
    have heb : '[' ∉ e := fun hm => ((hemem _ hm).2.1) rfl
    have htb : '[' ∉ t := fun hm => ((htmem _ hm).2.1) rfl
    simp [dialogueLine3, hcb, heb, htb]
  have hnl : '\n' ∉ dialogueLine3 c e t := by
    have hcn : '\n' ∉ c := fun hm => ((hcmem _ hm).2.2) rfl
    have hen : '\n' ∉ e := fun hm => ((hemem _ hm).2.2) rfl
    have htn : '\n' ∉ t := fun hm => ((htmem _ hm).2.2) rfl
    simp [dialogueLine3, hcn, hen, htn]
  have hform : dialogueLine3 c e t
      = ('*' :: ('*' :: c ++ ('*' :: '*' :: ':' :: ' ' :: '(' :: e ++ [')', ' ']))) ++ t := by
    simp [dialogueLine3]
  have hstrip : stripStr (dialogueLine3 c e t) = dialogueLine3 c e t := by
    rw [hform]
    exact stripStr_line (by decide) hts htne
  have hne : ¬(dialogueLine3 c e t = []) := by simp [dialogueLine3]
  have hsound : soundSearch (dialogueLine3 c e t) = none := soundSearch_none hbr
  have hps : pat1Search (dialogueLine3 c e t)
      = some (c, ' ' :: '(' :: (e ++ (')' :: ' ' :: t))) :=
    pat1Search_line3 e t hcne hcstar
  have hinner : stripStr ('(' :: (e ++ (')' :: ' ' :: t)))
      = '(' :: (e ++ (')' :: ' ' :: t)) := by
    have h : stripStr (('(' :: (e ++ [')', ' '])) ++ t)
        = ('(' :: (e ++ [')', ' '])) ++ t := stripStr_line (by decide) hts htne
    simpa using h
  have hts0 : stripStr (' ' :: '(' :: (e ++ (')' :: ' ' :: t)))
      = '(' :: (e ++ (')' :: ' ' :: t)) := stripStr_cons_ws (by decide) hinner
  have htr : stripStr (' ' :: t) = t := stripStr_cons_ws (by decide) hts
  have hemo : emotionMatch ('(' :: (e ++ (')' :: ' ' :: t))) = some (e, ' ' :: t) := by
    unfold emotionMatch
    exact emoLazy_concat (' ' :: t) hene hepar (by simp)
  rw [parseScene_single hnl hstrip]
  unfold classifyLine
  rw [if_neg hne, hsound]
  simp only [hps, hts0, hemo, htr, hcs, hes, hn, Bool.false_eq_true, if_false,
    List.append_nil]
  rw [mkDialogue_plain c (some e) htstar]

/-- C1 (counterexample to the claim as stated): the canonical §6.1 form
`**<Character>:** <text>`, written with the colon inside the closing bold
marks, is not recognized at all: the line `**Alice:** Hello there.` contains
neither a literal `**:` (first dialogue pattern) nor a parenthesis (second
pattern), so `parse_scene` returns no element for it. -/
theorem canonical_dialogue_form_not_parsed :
    parseScene ("**Alice:** Hello there.".toList) = [] := by
  decide

/-- C1 (amended): for plain fragments `c`, `e`, `t` (stripped, non-empty,
free of `*`, `[` and newlines), with `c` not starting with a colon, `t` not
starting with `(`, `e` free of `)`, and no `Narrator:` occurrence in the
line, `parse_scene` turns each of the dialogue lines `**c**: t`,
`**c** (e): t` and `**c**: (e) t` into exactly one Dialogue element whose
character is the bolded name `c`, whose text is `t`, and whose emotion is
`e` where the line carries one.  (The §6.1 colon-inside-bold form
`**c:** t` is, by contrast, not recognized.) -/
theorem parse_scene_dialogue_forms (c e t : List Char)
    (hc : plainStr c) (he : plainStr e) (ht : plainStr t)
    (hccol : c.head? ≠ some ':') (htpar : t.head? ≠ some '(')
    (hepar : ')' ∉ e)
    (hn1 : subStr ("Narrator:".toList) (dialogueLine1 c t) = false)
    (hn2 : subStr ("Narrator:".toList) (dialogueLine2 c e t) = false)
    (hn3 : subStr ("Narrator:".toList) (dialogueLine3 c e t) = false) :
    parseScene (dialogueLine1 c t) = [MDElem.dialogue c t none false false] ∧
    parseScene (dialogueLine2 c e t) =
      [MDElem.dialogue c t (some e) false false] ∧
    parseScene (dialogueLine3 c e t) =
      [MDElem.dialogue c t (some e) false false] :=
  ⟨parseScene_line1 hc ht htpar hn1,
   parseScene_line2 hc he ht hccol hepar hn2,
   parseScene_line3 hc he ht hepar hn3⟩

/-- C1 witness: the amended theorem at `c = "Alice"`, `e = "sad"`,
`t = "Hello there."`. -/
theorem parse_scene_dialogue_forms_witness :
    parseScene (dialogueLine1 ("Alice".toList) ("Hello there.".toList)) =
      [MDElem.dialogue ("Alice".toList) ("Hello there.".toList) none false false] ∧
    parseScene (dialogueLine2 ("Alice".toList) ("sad".toList) ("Hello there.".toList)) =
      [MDElem.dialogue ("Alice".toList) ("Hello there.".toList)
        (some ("sad".toList)) false false] ∧
    parseScene (dialogueLine3 ("Alice".toList) ("sad".toList) ("Hello there.".toList)) =
      [MDElem.dialogue ("Alice".toList) ("Hello there.".toList)
        (some ("sad".toList)) false false] :=
  parse_scene_dialogue_forms ("Alice".toList) ("sad".toList)
    ("Hello there.".toList) (by decide) (by decide) (by decide) (by decide)
    (by decide) (by decide) (by decide) (by decide) (by decide)

/-! ### Lemmas for the alternate parser and the strict validator -/

/-- Every member of a list appears in its enumeration from `k`. -/
theorem exists_mem_enumFrom {α : Type} {x : α} :
    ∀ {l : List α} (k : Nat), x ∈ l → ∃ i, (i, x) ∈ l.enumFrom k := by
  intro l
  induction l with
  | nil => intro k h; cases h
  | cons a l ih =>
    intro k h
    rcases List.mem_cons.mp h with h | h
    · subst h
      exact ⟨k, List.mem_cons_self _ _⟩
    · obtain ⟨i, hi⟩ := ih (k + 1) h
      exact ⟨i, List.mem_cons_of_mem _ hi⟩

/-- Every member of a list appears in its enumeration. -/
theorem exists_mem_enum {α : Type} {x : α} {l : List α} (h : x ∈ l) :
    ∃ i, (i, x) ∈ l.enum :=
  exists_mem_enumFrom 0 h

/-- An undefined character referenced by a dialogue element produces the
logged warning of `_validate_script_data`. -/
theorem softWarnings_mem {d : ParsedScript} {sc : PScene} {e : PElem}
    {ch : List Char} (hsc : sc ∈ d.scenes) (he : e ∈ sc.elements)
    (htype : e.type = "dialogue".toList) (hchar : e.character = some ch)
    (hk : hasKey ch d.characters = false) :
    ("Dialogue references undefined character: ".toList ++ ch) ∈ softWarnings d := by
  unfold softWarnings
  simp only [List.mem_append, List.mem_flatten, List.mem_map]
  refine Or.inr ⟨_, ⟨sc, hsc, rfl⟩, ?_⟩
  simp only [List.mem_flatten, List.mem_map]
  refine ⟨_, ⟨e, he, rfl⟩, ?_⟩
  rw [if_pos htype, hchar]
  simp [hk]

/-- An undefined, non-empty character code referenced by a dialogue element
produces the corresponding `validate_script` error entry. -/
theorem charRefErrors_mem {d : ParsedScript} {sc : PScene} {i : Nat} {e : PElem}
    {ch : List Char} (hsc : sc ∈ d.scenes) (hie : (i, e) ∈ sc.elements.enum)
    (htype : e.type = "dialogue".toList) (hchar : e.character = some ch)
    (hne : ch ≠ []) (hk : hasKey ch d.characters = false) :
    ("Scene ".toList ++ sc.name ++ ", element ".toList ++ natDigits i ++
     ": References undefined character '".toList ++ ch ++ ['\'']) ∈
      charRefErrors d := by
  unfold charRefErrors
  simp only [List.mem_flatten, List.mem_map]
  refine ⟨_, ⟨sc, hsc, rfl⟩, ?_⟩
  simp only [List.mem_flatten, List.mem_map]
  refine ⟨_, ⟨(i, e), hie, rfl⟩, ?_⟩
  dsimp only
  rw [if_pos htype, hchar]
  simp [hne, hk]

/-- Character-reference errors are part of the strict error list. -/
theorem validateScript_snd_mem {d : ParsedScript} {x : List Char}
    (h : x ∈ charRefErrors d) : x ∈ (validateScript d).2 := by
  unfold validateScript
  simp only [List.mem_append]
  exact Or.inl (Or.inr h)

/-- The validity flag is the emptiness test of the error list. -/
theorem validateScript_fst_eq (d : ParsedScript) :
    (validateScript d).1 = decide ((validateScript d).2 = []) :=
  rfl

/-- C7: for every script content whose parsed structure contains a dialogue
element referencing a (non-empty) character code absent from the character
definitions, parsing still completes — `_parse_content` is total and
`_validate_script_data` merely records a warning naming the character —
while `validate_script` applied to the parsed structure returns
`is_valid = false` together with at least one error entry naming the
undefined character. -/
theorem undefined_character_warns_then_fails_validation (content ch : List Char)
    (h : ∃ sc ∈ (parseContentAlt content).scenes, ∃ e ∈ sc.elements,
      e.type = "dialogue".toList ∧ e.character = some ch ∧ ch ≠ [] ∧
      hasKey ch (parseContentAlt content).characters = false) :
    (∃ w ∈ softWarnings (parseContentAlt content), subStr ch w = true) ∧
    (validateScript (parseContentAlt content)).1 = false ∧
    (∃ err ∈ (validateScript (parseContentAlt content)).2, subStr ch err = true) := by
  obtain ⟨sc, hsc, e, he, htype, hchar, hne, hk⟩ := h
  obtain ⟨i, hie⟩ := exists_mem_enum he
  have hw := softWarnings_mem hsc he htype hchar hk
  have herr := validateScript_snd_mem (charRefErrors_mem hsc hie htype hchar hne hk)
  refine ⟨⟨_, hw, ?_⟩, ?_, ⟨_, herr, ?_⟩⟩
  · have hmid := subStr_append_middle ch
      ("Dialogue references undefined character: ".toList) []
    simpa using hmid
  · rw [validateScript_fst_eq]
    exact decide_eq_false (List.ne_nil_of_mem herr)
  · exact subStr_append_middle ch _ _

/-- C7 witness: the concrete script `sampleContentAlt`, whose scene speaks
as the undefined character `BOB`. -/
theorem undefined_character_warns_then_fails_validation_witness :
    (∃ w ∈ softWarnings (parseContentAlt sampleContentAlt),
      subStr ("BOB".toList) w = true) ∧
    (validateScript (parseContentAlt sampleContentAlt)).1 = false ∧
    (∃ err ∈ (validateScript (parseContentAlt sampleContentAlt)).2,
      subStr ("BOB".toList) err = true) :=
  undefined_character_warns_then_fails_validation sampleContentAlt
    ("BOB".toList) (by decide)

end AudioDrama
